import Mathlib

/-!
The CFG pretty-printer of `lib/CFG/CFGPrinter.cpp`

A shallow embedding of the printer and of the identifier numbering it uses,
followed by theorems about the text it writes.

Modelling choices.

* Pointers (`const BasicBlock *`, `const Instruction *`, `BasicBlockArg *`)
  are addresses, natural numbers. Two objects are the same object exactly
  when their addresses are equal.
* `raw_ostream &OS` is the text written so far, a `String`; `OS << x`
  appends.
* `llvm::DenseMap<const T *, unsigned>` is a finite map from addresses to
  numbers, kept as an association list with at most one entry per key.
* `unsigned` is a natural number below `2 ^ 32`; `idx++` wraps.
* The class declarations (`BasicBlock`, `Instruction`, `CFG`, the
  instruction classes) live in headers outside this file. Their fields are
  the ones the printer reads; `getParent()` is read from an environment
  `Env` that maps an address to the owner recorded in the object.
* `assert(0 && ...)` aborts the process unless the file is built with
  `NDEBUG`; a print that aborts yields `none`.
-/

namespace swift

/-! ## Identifiers -/

/-- The anonymous `enum` of `struct ID`. -/
inductive IDKind where
  | BasicBlock
  | SSAValue
deriving DecidableEq, Repr

/-- Mirror of `struct ID`. -/
structure ID where
  Kind : IDKind
  Number : Nat
deriving DecidableEq, Repr

/-- Range of the C++ type `unsigned`: values are taken modulo this. -/
def UNSIGNED_RANGE : Nat := 2 ^ 32

/-- Value of the expression `~0U`. -/
def ALL_ONES : Nat := UNSIGNED_RANGE - 1

/-- Mirror of `operator<<(raw_ostream &, ID)`: the kind's lead-in, then the
number in decimal. -/
def writeID (OS : String) (i : ID) : String :=
  let OS1 :=
    match i.Kind with
    | IDKind.BasicBlock => OS ++ "bb"
    | IDKind.SSAValue => OS ++ "%"
  OS1 ++ toString i.Number

/-! ## The IR read by the printer -/

/-- Mirror of `CFGValue`, a pointer union of `Instruction *` and
`BasicBlockArg *`. -/
inductive CFGValue where
  | Instruction (p : Nat)
  | BasicBlockArg (p : Nat)
deriving DecidableEq, Repr

/-- Mirror of `llvm::APInt`: a bit pattern of a given width. -/
structure APInt where
  BitWidth : Nat
  bits : Nat
deriving DecidableEq, Repr

/-- Mirror of `raw_ostream << APInt`, which prints the value as a signed
decimal number. -/
def APInt.toSignedString (a : APInt) : String :=
  let v := a.bits % 2 ^ a.BitWidth
  if a.BitWidth ≠ 0 ∧ 2 ^ (a.BitWidth - 1) ≤ v then
    "-" ++ toString (2 ^ a.BitWidth - v)
  else
    toString v

/-- The instruction classes, each with the fields its `visit` method reads.
`Unhandled` stands for any instruction class for which `CFGPrinter` has no
`visit` method of its own, so that the visitor falls back to
`visitInstruction`. -/
inductive InstKind where
  | CallInst (function : CFGValue) (arguments : List CFGValue)
  | DeclRefInst (declName : String)
  | IntegerLiteralInst (literal : APInt)
  | LoadInst (lvalue : CFGValue)
  | ThisApplyInst (function : CFGValue) (argument : CFGValue)
  | TupleInst (elements : List CFGValue)
  | TypeOfInst (typeString : String)
  | ReturnInst (returnValue : Option CFGValue)
  | UncondBranchInst (targetBlock : Nat) (blockArgs : List Nat)
  | CondBranchInst (condition : CFGValue) (branch0 : Nat) (branch1 : Nat)
  | Unhandled
deriving DecidableEq, Repr

/-- An instruction object: its address and its contents. -/
structure Instruction where
  addr : Nat
  kind : InstKind
deriving DecidableEq, Repr

/-- A basic block object: its address, what `getPreds()` yields, and its
instruction list in definition order. -/
structure BasicBlock where
  addr : Nat
  Preds : List Nat
  insts : List Instruction
deriving DecidableEq, Repr

/-- A graph: its block list in order. -/
structure CFG where
  blocks : List BasicBlock
deriving DecidableEq, Repr

/-- What the printer reads from memory besides the object it was handed:
`Instruction::getParent()`, `BasicBlock::getParent()`, and whether
assertions are compiled out. -/
structure Env where
  instParent : Nat → Nat
  blockParent : Nat → CFG
  NDEBUG : Bool

/-! ## `llvm::DenseMap<const T *, unsigned>` -/

/-- A finite map from addresses to numbers. -/
structure DenseMap where
  entries : List (Nat × Nat)
deriving DecidableEq, Repr

namespace DenseMap

/-- Mirror of `DenseMap::empty()`. -/
def empty (M : DenseMap) : Bool := M.entries.isEmpty

/-- Mirror of `DenseMap::lookup`-style reading: the value stored under `k`. -/
def find (M : DenseMap) (k : Nat) : Option Nat := M.entries.lookup k

/-- Mirror of `M[k] = v`: overwrite the value under `k`, or add the entry. -/
def assign (M : DenseMap) (k v : Nat) : DenseMap :=
  match M.find k with
  | some _ => ⟨M.entries.map (fun e => if e.1 = k then (k, v) else e)⟩
  | none => ⟨M.entries ++ [(k, v)]⟩

/-- Mirror of reading `M[k]`: the stored value, or for a missing key a
value-initialised entry `k -> 0` is added and `0` is read. -/
def index (M : DenseMap) (k : Nat) : Nat × DenseMap :=
  match M.find k with
  | some v => (v, M)
  | none => (0, ⟨M.entries ++ [(k, 0)]⟩)

end DenseMap

/-! ## `class CFGPrinter` -/

/-- State of a `CFGPrinter` object: the stream and the two caches. -/
structure CFGPrinter where
  OS : String
  BlocksToIDMap : DenseMap
  InstructionToIDMap : DenseMap
deriving DecidableEq, Repr

namespace CFGPrinter

/-- Mirror of the constructor `CFGPrinter(raw_ostream &OS)`: both caches
start empty. -/
def new (OS : String) : CFGPrinter := ⟨OS, ⟨[]⟩, ⟨[]⟩⟩

/-- Mirror of `OS << s`. -/
def write (P : CFGPrinter) (s : String) : CFGPrinter := { P with OS := P.OS ++ s }

/-- Mirror of `OS << id` for an `ID`. -/
def writeID (P : CFGPrinter) (i : ID) : CFGPrinter := { P with OS := swift.writeID P.OS i }

end CFGPrinter

/-- The loop `for (const BasicBlock &B : *parent) BlocksToIDMap[&B] = idx++;`
of `getID(const BasicBlock *)`. -/
def numberBlocks : List BasicBlock → Nat → DenseMap → DenseMap
  | [], _, M => M
  | B :: rest, idx, M => numberBlocks rest ((idx + 1) % UNSIGNED_RANGE) (M.assign B.addr idx)

/-- Mirror of `CFGPrinter::getID(const BasicBlock *)`. -/
def getID_BasicBlock (E : Env) (Block : Nat) (P : CFGPrinter) : ID × CFGPrinter :=
  let M :=
    if P.BlocksToIDMap.empty then
      numberBlocks (E.blockParent Block).blocks 0 P.BlocksToIDMap
    else
      P.BlocksToIDMap
  let r := M.index Block
  (⟨IDKind.BasicBlock, r.1⟩, { P with BlocksToIDMap := r.2 })

/-- The inner loop `for (auto &I : BB) InstructionToIDMap[&I] = idx++;` of
`getID(const Instruction *)`; returns the map and the counter. -/
def numberInsts : List Instruction → Nat → DenseMap → DenseMap × Nat
  | [], idx, M => (M, idx)
  | I :: rest, idx, M => numberInsts rest ((idx + 1) % UNSIGNED_RANGE) (M.assign I.addr idx)

/-- The outer loop `for (auto &BB : *parent)` of `getID(const Instruction *)`. -/
def numberAllInsts : List BasicBlock → Nat → DenseMap → DenseMap
  | [], _, M => M
  | BB :: rest, idx, M =>
    let r := numberInsts BB.insts idx M
    numberAllInsts rest r.2 r.1

/-- Mirror of `CFGPrinter::getID(const Instruction *)`. -/
def getID_Instruction (E : Env) (Inst : Nat) (P : CFGPrinter) : ID × CFGPrinter :=
  let M :=
    if P.InstructionToIDMap.empty then
      numberAllInsts (E.blockParent (E.instParent Inst)).blocks 0 P.InstructionToIDMap
    else
      P.InstructionToIDMap
  let r := M.index Inst
  (⟨IDKind.SSAValue, r.1⟩, { P with InstructionToIDMap := r.2 })

/-- Mirror of `CFGPrinter::getID(const BasicBlockArg *)`. -/
def getID_BasicBlockArg (_BBArg : Nat) (P : CFGPrinter) : ID × CFGPrinter :=
  (⟨IDKind.SSAValue, ALL_ONES⟩, P)

/-- Mirror of `CFGPrinter::getID(const CFGValue &)`. -/
def getID_CFGValue (E : Env) (Val : CFGValue) (P : CFGPrinter) : ID × CFGPrinter :=
  match Val with
  | CFGValue.Instruction Inst => getID_Instruction E Inst P
  | CFGValue.BasicBlockArg BBArg => getID_BasicBlockArg BBArg P

/-! ## The `visit` methods -/

/-- The argument loop of `visitCallInst`, with its `first` flag. -/
def visitCallInst_args (E : Env) : List CFGValue → Bool → CFGPrinter → CFGPrinter
  | [], _, P => P
  | arg :: rest, first, P =>
    let P1 := if first then P else P.write " "
    let r := getID_CFGValue E arg P1
    visitCallInst_args E rest false (r.2.writeID r.1)

/-- Mirror of `visitCallInst`. -/
def visitCallInst (E : Env) (function : CFGValue) (args : List CFGValue)
    (P : CFGPrinter) : CFGPrinter :=
  let r := getID_CFGValue E function (P.write "Call(fn=")
  let P1 := r.2.writeID r.1
  let P2 :=
    if !args.isEmpty then
      (visitCallInst_args E args true (P1.write ",args=(")).write ")"
    else
      P1
  P2.write ")"

/-- Mirror of `visitDeclRefInst`. -/
def visitDeclRefInst (declName : String) (P : CFGPrinter) : CFGPrinter :=
  ((P.write "DeclRef(decl=").write declName).write ")"

/-- Mirror of `visitIntegerLiteralInst`. -/
def visitIntegerLiteralInst (lit : APInt) (P : CFGPrinter) : CFGPrinter :=
  ((((P.write "Integer(val=").write lit.toSignedString).write ",width=").write
    (toString lit.BitWidth)).write ")"

/-- Mirror of `visitLoadInst`. -/
def visitLoadInst (E : Env) (lvalue : CFGValue) (P : CFGPrinter) : CFGPrinter :=
  let r := getID_CFGValue E lvalue (P.write "Load(lvalue=")
  (r.2.writeID r.1).write ")"

/-- Mirror of `visitThisApplyInst`. -/
def visitThisApplyInst (E : Env) (function argument : CFGValue) (P : CFGPrinter) :
    CFGPrinter :=
  let r := getID_CFGValue E function (P.write "ThisApply(fn=")
  let r2 := getID_CFGValue E argument ((r.2.writeID r.1).write ",arg=")
  (r2.2.writeID r2.1).write ")"

/-- The element loop of `visitTupleInst`, with its `isFirst` flag. -/
def visitTupleInst_elems (E : Env) : List CFGValue → Bool → CFGPrinter → CFGPrinter
  | [], _, P => P
  | Elem :: rest, isFirst, P =>
    let P1 := if isFirst then P else P.write ","
    let r := getID_CFGValue E Elem P1
    visitTupleInst_elems E rest false (r.2.writeID r.1)

/-- Mirror of `visitTupleInst`. -/
def visitTupleInst (E : Env) (elements : List CFGValue) (P : CFGPrinter) : CFGPrinter :=
  (visitTupleInst_elems E elements true (P.write "Tuple(")).write ")"

/-- Mirror of `visitTypeOfInst`. -/
def visitTypeOfInst (typeString : String) (P : CFGPrinter) : CFGPrinter :=
  ((P.write "TypeOf(type=").write typeString).write ")"

/-- Mirror of `visitReturnInst`. -/
def visitReturnInst (E : Env) (returnValue : Option CFGValue) (P : CFGPrinter) :
    CFGPrinter :=
  let P1 := P.write "Return"
  match returnValue with
  | some v =>
    let r := getID_CFGValue E v (P1.write "(")
    (r.2.writeID r.1).write ")"
  | none => P1

/-- The loop `for (auto Arg : Args) { OS << "%" << Arg; }` of
`visitUncondBranchInst`. -/
def visitUncondBranchInst_args : List Nat → CFGPrinter → CFGPrinter
  | [], P => P
  | Arg :: rest, P => visitUncondBranchInst_args rest ((P.write "%").write (toString Arg))

/-- Mirror of `visitUncondBranchInst`. -/
def visitUncondBranchInst (E : Env) (targetBlock : Nat) (Args : List Nat)
    (P : CFGPrinter) : CFGPrinter :=
  let r := getID_BasicBlock E targetBlock (P.write "br ")
  let P1 := r.2.writeID r.1
  if !Args.isEmpty then
    (visitUncondBranchInst_args Args (P1.write "(")).write ")"
  else
    P1

/-- Mirror of `visitCondBranchInst`. -/
def visitCondBranchInst (E : Env) (branch0 branch1 : Nat) (P : CFGPrinter) : CFGPrinter :=
  let P1 := (P.write "cond_br(cond=").write "?"
  let r := getID_BasicBlock E branch0 (P1.write ",branches=(")
  let r2 := getID_BasicBlock E branch1 ((r.2.writeID r.1).write ",")
  (r2.2.writeID r2.1).write "))"

/-- Mirror of `visitInstruction`, the fallback: `assert(0 && ...)`. -/
def visitInstruction (E : Env) (P : CFGPrinter) : Option CFGPrinter :=
  if E.NDEBUG then some P else none

/-- Mirror of `CFGVisitor::visit`: dispatch on the instruction class. -/
def visit (E : Env) (k : InstKind) (P : CFGPrinter) : Option CFGPrinter :=
  match k with
  | InstKind.CallInst f args => some (visitCallInst E f args P)
  | InstKind.DeclRefInst n => some (visitDeclRefInst n P)
  | InstKind.IntegerLiteralInst lit => some (visitIntegerLiteralInst lit P)
  | InstKind.LoadInst lv => some (visitLoadInst E lv P)
  | InstKind.ThisApplyInst f a => some (visitThisApplyInst E f a P)
  | InstKind.TupleInst es => some (visitTupleInst E es P)
  | InstKind.TypeOfInst t => some (visitTypeOfInst t P)
  | InstKind.ReturnInst rv => some (visitReturnInst E rv P)
  | InstKind.UncondBranchInst t args => some (visitUncondBranchInst E t args P)
  | InstKind.CondBranchInst _ b0 b1 => some (visitCondBranchInst E b0 b1 P)
  | InstKind.Unhandled => visitInstruction E P

/-! ## Printing instructions, blocks and graphs -/

/-- Mirror of `CFGPrinter::print(const Instruction *)`. -/
def printInstruction (E : Env) (I : Instruction) (P : CFGPrinter) : Option CFGPrinter :=
  let r := getID_Instruction E I.addr (P.write "  ")
  let P1 := (r.2.writeID r.1).write " = "
  match visit E I.kind P1 with
  | some P2 => some (P2.write "\n")
  | none => none

/-- The loop `for (const BasicBlock *B : BB->getPreds()) OS << ' ' << getID(B);`. -/
def printPreds (E : Env) : List Nat → CFGPrinter → CFGPrinter
  | [], P => P
  | B :: rest, P =>
    let r := getID_BasicBlock E B (P.write " ")
    printPreds E rest (r.2.writeID r.1)

/-- The loop `for (const Instruction &I : *BB) print(&I);`. -/
def printInstructions (E : Env) : List Instruction → CFGPrinter → Option CFGPrinter
  | [], P => some P
  | I :: rest, P =>
    match printInstruction E I P with
    | some P1 => printInstructions E rest P1
    | none => none

/-- Mirror of `CFGPrinter::print(const BasicBlock *)`. -/
def printBasicBlock (E : Env) (BB : BasicBlock) (P : CFGPrinter) : Option CFGPrinter :=
  let r := getID_BasicBlock E BB.addr P
  let P1 := (r.2.writeID r.1).write ":\t"
  let P2 := P1.write " ; Preds:"
  let P3 := (printPreds E BB.Preds P2).write "\n"
  match printInstructions E BB.insts P3 with
  | some P4 => some (P4.write "\n")
  | none => none

/-- The loop `for (const BasicBlock &B : *this) Printer.print(&B);`. -/
def printBlocks (E : Env) : List BasicBlock → CFGPrinter → Option CFGPrinter
  | [], P => some P
  | B :: rest, P =>
    match printBasicBlock E B P with
    | some P1 => printBlocks E rest P1
    | none => none

/-- Mirror of `Instruction::print(raw_ostream &)`: the text on the stream
afterwards. -/
def Instruction.print (E : Env) (I : Instruction) (OS : String) : Option String :=
  (printInstruction E I (CFGPrinter.new OS)).map CFGPrinter.OS

/-- Mirror of `BasicBlock::print(raw_ostream &)`. -/
def BasicBlock.print (E : Env) (BB : BasicBlock) (OS : String) : Option String :=
  (printBasicBlock E BB (CFGPrinter.new OS)).map CFGPrinter.OS

/-- Mirror of `CFG::print(llvm::raw_ostream &)`. -/
def CFG.print (E : Env) (G : CFG) (OS : String) : Option String :=
  (printBlocks E G.blocks (CFGPrinter.new OS)).map CFGPrinter.OS

/-! ## Definitions used to state the results -/

/-- The number a cache reports for a key: the stored one, and 0 for a key it
does not hold (the value `operator[]` would create). -/
def DenseMap.numOf (M : DenseMap) (k : Nat) : Nat := (M.find k).getD 0

/-- All instructions of a graph, block by block in block order, each block
in definition order. -/
def CFG.instructions (G : CFG) : List Instruction :=
  (G.blocks.map BasicBlock.insts).flatten

/-- The numbering loop over a bare list of addresses: each address in turn
is assigned the counter, which is then incremented as an `unsigned`. Both
numbering passes are instances of it. -/
def numberKeys : List Nat → Nat → DenseMap → DenseMap × Nat
  | [], idx, M => (M, idx)
  | k :: rest, idx, M => numberKeys rest ((idx + 1) % UNSIGNED_RANGE) (M.assign k idx)

/-- One block at address 1 holding 2^32 + 1 return instructions, at the
addresses 2, 3, ... -/
def wideBlock : BasicBlock :=
  ⟨1, [], (List.range 4294967297).map (fun a => ⟨a + 2, InstKind.ReturnInst none⟩)⟩

/-- The graph made of `wideBlock` alone. -/
def wideGraph : CFG := ⟨[wideBlock]⟩

/-- A graph of 2^32 + 1 empty blocks, at the addresses 1, 2, ... -/
def longGraph : CFG := ⟨(List.range 4294967297).map (fun a => ⟨a + 1, [], []⟩)⟩

/-- The environment in which every block is owned by `G` and every
instruction by the block at address `b`. -/
def Env.ofGraph (G : CFG) (b : Nat) : Env := ⟨fun _ => b, fun _ => G, false⟩

/-- Text `operator<<` writes for an identifier. -/
def ID.text (i : ID) : String := writeID "" i

/-- Text of a reference to the block at address `b` under a block numbering. -/
def blockRef (nB : Nat → Nat) (b : Nat) : String := ID.text ⟨IDKind.BasicBlock, nB b⟩

/-- Text of a reference to a value under an instruction numbering: an
instruction shows its number, a block argument the number `getID` gives
every block argument. -/
def valueRef (nI : Nat → Nat) : CFGValue → String
  | CFGValue.Instruction p => ID.text ⟨IDKind.SSAValue, nI p⟩
  | CFGValue.BasicBlockArg _ => ID.text ⟨IDKind.SSAValue, ALL_ONES⟩

/-- The text the `visit` method of an instruction class writes, as a
function of the two numberings; nothing for a class that has no method. -/
def bodyText (nB nI : Nat → Nat) : InstKind → String
  | InstKind.CallInst f args =>
    "Call(fn=" ++ valueRef nI f ++
      (if args.isEmpty then "" else
        ",args=(" ++ " ".intercalate (args.map (valueRef nI)) ++ ")") ++ ")"
  | InstKind.DeclRefInst n => "DeclRef(decl=" ++ n ++ ")"
  | InstKind.IntegerLiteralInst lit =>
    "Integer(val=" ++ lit.toSignedString ++ ",width=" ++ toString lit.BitWidth ++ ")"
  | InstKind.LoadInst lv => "Load(lvalue=" ++ valueRef nI lv ++ ")"
  | InstKind.ThisApplyInst f a =>
    "ThisApply(fn=" ++ valueRef nI f ++ ",arg=" ++ valueRef nI a ++ ")"
  | InstKind.TupleInst es => "Tuple(" ++ ",".intercalate (es.map (valueRef nI)) ++ ")"
  | InstKind.TypeOfInst t => "TypeOf(type=" ++ t ++ ")"
  | InstKind.ReturnInst rv =>
    "Return" ++ (match rv with
      | some v => "(" ++ valueRef nI v ++ ")"
      | none => "")
  | InstKind.UncondBranchInst t args =>
    "br " ++ blockRef nB t ++
      (if args.isEmpty then "" else
        "(" ++ String.join (args.map (fun a => "%" ++ toString a)) ++ ")")
  | InstKind.CondBranchInst _ b0 b1 =>
    "cond_br(cond=?,branches=(" ++ blockRef nB b0 ++ "," ++ blockRef nB b1 ++ "))"
  | InstKind.Unhandled => ""

/-- The line `print(const Instruction *)` writes for an instruction. -/
def instText (nB nI : Nat → Nat) (I : Instruction) : String :=
  "  " ++ valueRef nI (CFGValue.Instruction I.addr) ++ " = " ++ bodyText nB nI I.kind ++ "\n"

/-- The text `print(const BasicBlock *)` writes for a block. -/
def blockText (nB nI : Nat → Nat) (BB : BasicBlock) : String :=
  blockRef nB BB.addr ++ ":\t" ++ " ; Preds:" ++
    String.join (BB.Preds.map (fun p => " " ++ blockRef nB p)) ++ "\n" ++
    String.join (BB.insts.map (instText nB nI)) ++ "\n"

/-- The block cache as `getID(const BasicBlock *)` leaves it after its lazy
initialisation step, before the lookup of `Block`. -/
def initBlocks (E : Env) (Block : Nat) (M : DenseMap) : DenseMap :=
  if M.empty then numberBlocks (E.blockParent Block).blocks 0 M else M

/-- The instruction cache as `getID(const Instruction *)` leaves it after
its lazy initialisation step, before the lookup of `Inst`. -/
def initInsts (E : Env) (Inst : Nat) (M : DenseMap) : DenseMap :=
  if M.empty then numberAllInsts (E.blockParent (E.instParent Inst)).blocks 0 M else M

/-- The block cache is initialised and reports the numbering `nB`. -/
def BlocksSettled (nB : Nat → Nat) (P : CFGPrinter) : Prop :=
  P.BlocksToIDMap.empty = false ∧ ∀ k, P.BlocksToIDMap.numOf k = nB k

/-- The instruction cache is initialised and reports the numbering `nI`. -/
def InstsSettled (nI : Nat → Nat) (P : CFGPrinter) : Prop :=
  P.InstructionToIDMap.empty = false ∧ ∀ k, P.InstructionToIDMap.numOf k = nI k

/-- No instruction of the list makes `visitInstruction` abort. -/
def NoAbort (E : Env) (is : List Instruction) : Prop :=
  ∀ I ∈ is, I.kind = InstKind.Unhandled → E.NDEBUG = true

/-- The instruction cache as the instruction loop of a block leaves it
initialised: the first instruction printed triggers the initialisation. -/
def instsAfter (E : Env) (is : List Instruction) (M : DenseMap) : DenseMap :=
  match is with
  | [] => M
  | I :: _ => initInsts E I.addr M

/-- Every block of `G` and every instruction of `G` records `G` as its
owning graph. -/
def Env.Owns (E : Env) (G : CFG) : Prop :=
  (∀ B ∈ G.blocks, E.blockParent B.addr = G) ∧
    (∀ I ∈ G.instructions, E.blockParent (E.instParent I.addr) = G)

/-- The numbering the block pass of `getID(const BasicBlock *)` computes
for `G` on an empty cache. -/
def CFG.blockNumber (G : CFG) : Nat → Nat := (numberBlocks G.blocks 0 ⟨[]⟩).numOf

/-- The numbering the instruction pass of `getID(const Instruction *)`
computes for `G` on an empty cache. -/
def CFG.valueNumber (G : CFG) : Nat → Nat := (numberAllInsts G.blocks 0 ⟨[]⟩).numOf

/-- The block cache reports `nB`, or is still empty and `nB` is what the
pass over `G` will store. -/
def BlocksLazy (G : CFG) (nB : Nat → Nat) (P : CFGPrinter) : Prop :=
  BlocksSettled nB P ∨ (P.BlocksToIDMap = ⟨[]⟩ ∧ nB = G.blockNumber)

/-- The instruction cache reports `nI`, or is still empty and `nI` is what
the pass over `G` will store. -/
def InstsLazy (G : CFG) (nI : Nat → Nat) (P : CFGPrinter) : Prop :=
  InstsSettled nI P ∨ (P.InstructionToIDMap = ⟨[]⟩ ∧ nI = G.valueNumber)

/-- A two-block graph used in the worked examples: block 100 holds a call
and a tuple, block 101 (predecessors 100 and 101) a branch with two block
arguments, a conditional branch and an integer literal. -/
def sampleGraph : CFG :=
  ⟨[⟨100, [],
      [⟨200, InstKind.CallInst (CFGValue.Instruction 201)
          [CFGValue.Instruction 200, CFGValue.BasicBlockArg 5]⟩,
       ⟨201, InstKind.TupleInst [CFGValue.Instruction 201, CFGValue.Instruction 204]⟩]⟩,
    ⟨101, [100, 101],
      [⟨202, InstKind.UncondBranchInst 100 [1, 2]⟩,
       ⟨203, InstKind.CondBranchInst (CFGValue.Instruction 200) 101 100⟩,
       ⟨204, InstKind.IntegerLiteralInst ⟨8, 255⟩⟩]⟩]⟩

/-- The graph of one block holding one `return` without a value. -/
def returnGraph (b a : Nat) : CFG := ⟨[⟨b, [], [⟨a, InstKind.ReturnInst none⟩]⟩]⟩

/-- The printer state of `print(const Instruction *)` once it has written
the indentation, the instruction's identifier and `" = "`, right before it
calls `visit`. -/
def afterLabel (E : Env) (I : Instruction) (P : CFGPrinter) : CFGPrinter :=
  ((getID_Instruction E I.addr (P.write "  ")).2.writeID
    (getID_Instruction E I.addr (P.write "  ")).1).write " = "

/-- A graph of two blocks: block 100 returns, block 101 has block 100 as its
predecessor and branches back to it without block arguments. -/
def loopGraph : CFG :=
  ⟨[⟨100, [], [⟨200, InstKind.ReturnInst none⟩]⟩,
    ⟨101, [100], [⟨201, InstKind.UncondBranchInst 100 []⟩]⟩]⟩

/-- The block cache as the `visit` method of an instruction class leaves it
initialised: a branch looks up its (first) target before anything else,
the other classes look up no block. -/
def blocksAtVisit (E : Env) (k : InstKind) (M : DenseMap) : DenseMap :=
  match k with
  | InstKind.UncondBranchInst t _ => initBlocks E t M
  | InstKind.CondBranchInst _ b0 _ => initBlocks E b0 M
  | _ => M

/-- The blocks an instruction refers to: the target of a branch, the two
arms of a conditional branch. -/
def InstKind.blockRefs : InstKind → List Nat
  | InstKind.UncondBranchInst t _ => [t]
  | InstKind.CondBranchInst _ b0 b1 => [b0, b1]
  | _ => []

/-- A one-block graph whose only instruction is of a class without a
`visit` method. -/
def unhandledGraph : CFG := ⟨[⟨100, [], [⟨200, InstKind.Unhandled⟩]⟩]⟩

/-- The environment of `Env.ofGraph` for a build with `NDEBUG`, where
assertions are compiled out. -/
def Env.ofGraphRelease (G : CFG) (b : Nat) : Env := ⟨fun _ => b, fun _ => G, true⟩

/-- The text `CFG::print` appends for a graph, or `none` when the print
aborts: a function of the graph and of the build alone. -/
def CFG.text (ndebug : Bool) (G : CFG) : Option String :=
  if !ndebug && G.instructions.any (fun I => decide (I.kind = InstKind.Unhandled)) then none
  else some (String.join (G.blocks.map (blockText G.blockNumber G.valueNumber)))

/-- The blocks of a list printed one after the other onto a stream, each by
its own `BasicBlock::print`, hence each with a printer of its own. -/
def printBlocksAlone (E : Env) : List BasicBlock → String → Option String
  | [], OS => some OS
  | B :: rest, OS =>
    match BasicBlock.print E B OS with
    | some OS1 => printBlocksAlone E rest OS1
    | none => none

/-- Value of a list of decimal digit characters read from the left,
continuing from `acc`. -/
def decodeDecimal (acc : Nat) (l : List Char) : Nat :=
  l.foldl (fun a c => a * 10 + (c.toNat - 48)) acc

/-! ## Facts about the caches -/

theorem lookup_map_overwrite (k v k' : Nat) (l : List (Nat × Nat)) :
    List.lookup k' (l.map (fun e => if e.1 = k then (k, v) else e)) =
      if k' = k then (List.lookup k l).map (fun _ => v) else List.lookup k' l := by
  induction l with
  | nil => simp
  | cons e l ih =>
    obtain ⟨a, b⟩ := e
    by_cases hk : k' = k
    · subst hk
      by_cases ha : a = k'
      · subst ha; simp [List.lookup_cons]
      · have ha2 : (k' == a) = false := by simpa using fun h => ha h.symm
        simp only [List.map_cons, ha, if_false, List.lookup_cons, ha2, ih, if_true]
    · by_cases ha : a = k
      · subst ha
        have ha2 : (k' == a) = false := by simpa using hk
        simp only [List.map_cons, if_true, List.lookup_cons, ha2, ih, hk, if_false]
      · simp only [List.map_cons, ha, if_false, List.lookup_cons, ih, hk]

theorem DenseMap.find_assign (M : DenseMap) (k v k' : Nat) :
    (M.assign k v).find k' = if k' = k then some v else M.find k' := by
  unfold DenseMap.assign
  cases h : M.find k with
  | none =>
    simp only [DenseMap.find] at h ⊢
    rw [List.lookup_append]
    by_cases hk : k' = k
    · subst hk; simp [h]
    · have : (k' == k) = false := by simpa using hk
      simp [List.lookup_cons, this, hk]
  | some w =>
    simp only [DenseMap.find] at h ⊢
    rw [lookup_map_overwrite, h]
    simp

theorem DenseMap.index_fst (M : DenseMap) (k : Nat) : (M.index k).1 = M.numOf k := by
  unfold DenseMap.index DenseMap.numOf
  cases h : M.find k <;> simp

theorem DenseMap.index_snd_numOf (M : DenseMap) (k k' : Nat) :
    (M.index k).2.numOf k' = M.numOf k' := by
  unfold DenseMap.index DenseMap.numOf
  cases h : M.find k with
  | some w => simp
  | none =>
    simp only [DenseMap.find] at h ⊢
    rw [List.lookup_append]
    by_cases hk : k' = k
    · subst hk; simp [h]
    · have : (k' == k) = false := by simpa using hk
      simp [List.lookup_cons, this]

theorem DenseMap.index_snd_empty (M : DenseMap) (k : Nat) : (M.index k).2.empty = false := by
  unfold DenseMap.index
  cases h : M.find k with
  | some w =>
    simp only [DenseMap.find] at h
    simp only [DenseMap.empty]
    cases he : M.entries with
    | nil => rw [he] at h; simp at h
    | cons a l => rfl
  | none => simp [DenseMap.empty]

theorem DenseMap.index_of_find (M : DenseMap) (k v : Nat) (h : M.find k = some v) :
    M.index k = (v, M) := by
  unfold DenseMap.index; rw [h]

/-! ## Facts about the numbering passes -/

theorem UNSIGNED_RANGE_pos : 0 < UNSIGNED_RANGE := by
  unfold UNSIGNED_RANGE; exact Nat.pow_pos (by omega)

theorem numberInsts_eq (is : List Instruction) (idx : Nat) (M : DenseMap) :
    numberInsts is idx M = numberKeys (is.map Instruction.addr) idx M := by
  induction is generalizing idx M with
  | nil => rfl
  | cons I rest ih => simp only [numberInsts, List.map_cons, numberKeys, ih]

theorem numberBlocks_eq (bs : List BasicBlock) (idx : Nat) (M : DenseMap) :
    numberBlocks bs idx M = (numberKeys (bs.map BasicBlock.addr) idx M).1 := by
  induction bs generalizing idx M with
  | nil => rfl
  | cons B rest ih => simp only [numberBlocks, List.map_cons, numberKeys, ih]

theorem numberKeys_append (a b : List Nat) (idx : Nat) (M : DenseMap) :
    numberKeys (a ++ b) idx M =
      numberKeys b (numberKeys a idx M).2 (numberKeys a idx M).1 := by
  induction a generalizing idx M with
  | nil => rfl
  | cons k rest ih =>
    rw [List.cons_append]
    simp only [numberKeys]
    exact ih _ _

theorem numberAllInsts_eq (bs : List BasicBlock) (idx : Nat) (M : DenseMap) :
    numberAllInsts bs idx M =
      (numberKeys (((bs.map BasicBlock.insts).flatten).map Instruction.addr) idx M).1 := by
  induction bs generalizing idx M with
  | nil => rfl
  | cons B rest ih =>
    simp only [numberAllInsts, List.map_cons, List.flatten_cons, List.map_append,
      numberKeys_append, ih, numberInsts_eq]

theorem numberKeys_find_not_mem (ks : List Nat) (idx : Nat) (M : DenseMap) (k : Nat)
    (hk : k ∉ ks) : (numberKeys ks idx M).1.find k = M.find k := by
  induction ks generalizing idx M with
  | nil => rfl
  | cons a rest ih =>
    simp only [List.mem_cons, not_or] at hk
    simp only [numberKeys]
    rw [ih _ _ hk.2, DenseMap.find_assign, if_neg hk.1]

theorem numberKeys_find (ks : List Nat) (idx : Nat) (M : DenseMap)
    (hidx : idx < UNSIGNED_RANGE) (hnd : ks.Nodup) (j k : Nat) (hj : ks[j]? = some k) :
    (numberKeys ks idx M).1.find k = some ((idx + j) % UNSIGNED_RANGE) := by
  induction ks generalizing idx M j with
  | nil => simp at hj
  | cons a rest ih =>
    rw [List.nodup_cons] at hnd
    simp only [numberKeys]
    cases j with
    | zero =>
      simp only [List.getElem?_cons_zero, Option.some.injEq] at hj
      subst hj
      rw [numberKeys_find_not_mem _ _ _ _ hnd.1, DenseMap.find_assign, if_pos rfl,
        Nat.add_zero, Nat.mod_eq_of_lt hidx]
    | succ j =>
      simp only [List.getElem?_cons_succ] at hj
      rw [ih _ _ (Nat.mod_lt _ UNSIGNED_RANGE_pos) hnd.2 j hj]
      congr 1
      rw [Nat.mod_add_mod]
      congr 1
      omega

theorem flatten_insts_getElem? (bs : List BasicBlock) (i j : Nat) (b : BasicBlock)
    (I : Instruction) (hb : bs[i]? = some b) (hI : b.insts[j]? = some I) :
    ((bs.map BasicBlock.insts).flatten)[((bs.take i).map
      (fun B => B.insts.length)).sum + j]? = some I := by
  induction bs generalizing i with
  | nil => simp at hb
  | cons B rest ih =>
    cases i with
    | zero =>
      simp only [List.getElem?_cons_zero, Option.some.injEq] at hb
      subst hb
      have hlt : j < B.insts.length := by
        by_contra hc
        rw [List.getElem?_eq_none (by omega)] at hI
        cases hI
      simp only [List.take_zero, List.map_nil, List.sum_nil, Nat.zero_add, List.map_cons,
        List.flatten_cons]
      rw [List.getElem?_append_left hlt, hI]
    | succ i =>
      simp only [List.getElem?_cons_succ] at hb
      simp only [List.take_succ_cons, List.map_cons, List.sum_cons, List.flatten_cons]
      rw [List.getElem?_append_right (by omega)]
      have : B.insts.length + ((rest.take i).map (fun B => B.insts.length)).sum + j
          - B.insts.length = ((rest.take i).map (fun B => B.insts.length)).sum + j := by omega
      rw [this]
      exact ih i hb

theorem getID_Instruction_fresh_number (E : Env) (G : CFG) (OS : String) (BM : DenseMap)
    (n : Nat) (I : Instruction)
    (hnd : (G.instructions.map Instruction.addr).Nodup)
    (hI : G.instructions[n]? = some I)
    (hparent : E.blockParent (E.instParent I.addr) = G) :
    (getID_Instruction E I.addr ⟨OS, BM, ⟨[]⟩⟩).1 =
      ⟨IDKind.SSAValue, n % UNSIGNED_RANGE⟩ := by
  have hk : (G.instructions.map Instruction.addr)[n]? = some I.addr := by
    rw [List.getElem?_map, hI]; rfl
  have hf := numberKeys_find _ 0 ⟨[]⟩ UNSIGNED_RANGE_pos hnd n I.addr hk
  rw [Nat.zero_add] at hf
  simp only [CFG.instructions] at hf
  simp only [getID_Instruction, DenseMap.empty, List.isEmpty_nil, if_true, hparent,
    numberAllInsts_eq]
  rw [DenseMap.index_of_find _ _ _ hf]

theorem getID_BasicBlock_fresh_number (E : Env) (G : CFG) (OS : String) (IM : DenseMap)
    (i : Nat) (b : BasicBlock)
    (hnd : (G.blocks.map BasicBlock.addr).Nodup)
    (hb : G.blocks[i]? = some b)
    (hparent : E.blockParent b.addr = G) :
    (getID_BasicBlock E b.addr ⟨OS, ⟨[]⟩, IM⟩).1 =
      ⟨IDKind.BasicBlock, i % UNSIGNED_RANGE⟩ := by
  have hk : (G.blocks.map BasicBlock.addr)[i]? = some b.addr := by
    rw [List.getElem?_map, hb]; rfl
  have hf := numberKeys_find _ 0 ⟨[]⟩ UNSIGNED_RANGE_pos hnd i b.addr hk
  rw [Nat.zero_add] at hf
  simp only [getID_BasicBlock, DenseMap.empty, List.isEmpty_nil, if_true, hparent,
    numberBlocks_eq]
  rw [DenseMap.index_of_find _ _ _ hf]

/-! ## Facts about strings -/

theorem writeID_eq (OS : String) (i : ID) : writeID OS i = OS ++ i.text := by
  unfold ID.text writeID
  cases i.Kind <;> simp [String.append_assoc]

theorem foldl_append_string (l : List String) (acc : String) :
    List.foldl (fun r s => r ++ s) acc l = acc ++ List.foldl (fun r s => r ++ s) "" l := by
  induction l generalizing acc with
  | nil => simp
  | cons a l ih => simp only [List.foldl_cons]; rw [ih, ih ("" ++ a)]; simp [String.append_assoc]

theorem join_cons (a : String) (l : List String) :
    String.join (a :: l) = a ++ String.join l := by
  unfold String.join
  simp only [List.foldl_cons]
  rw [foldl_append_string]
  simp

theorem join_nil : String.join [] = "" := rfl

theorem intercalate_go (sep : String) (l : List String) (acc : String) :
    String.intercalate.go acc sep l = acc ++ String.join (l.map (fun s => sep ++ s)) := by
  induction l generalizing acc with
  | nil => simp [String.intercalate.go, join_nil]
  | cons a l ih =>
    simp only [String.intercalate.go, List.map_cons, join_cons, ih, String.append_assoc]

theorem intercalate_cons (sep a : String) (l : List String) :
    sep.intercalate (a :: l) = a ++ String.join (l.map (fun s => sep ++ s)) := by
  simp only [String.intercalate, intercalate_go]

/-! ## One step of the printer on initialised caches -/

@[simp] theorem write_OS (P : CFGPrinter) (s : String) : (P.write s).OS = P.OS ++ s := rfl

@[simp] theorem write_Blocks (P : CFGPrinter) (s : String) :
    (P.write s).BlocksToIDMap = P.BlocksToIDMap := rfl

@[simp] theorem write_Insts (P : CFGPrinter) (s : String) :
    (P.write s).InstructionToIDMap = P.InstructionToIDMap := rfl

@[simp] theorem writeID_OS (P : CFGPrinter) (i : ID) : (P.writeID i).OS = P.OS ++ i.text :=
  writeID_eq P.OS i

@[simp] theorem writeID_Blocks (P : CFGPrinter) (i : ID) :
    (P.writeID i).BlocksToIDMap = P.BlocksToIDMap := rfl

@[simp] theorem writeID_Insts (P : CFGPrinter) (i : ID) :
    (P.writeID i).InstructionToIDMap = P.InstructionToIDMap := rfl

theorem BlocksSettled_congr {nB : Nat → Nat} {P Q : CFGPrinter}
    (h : Q.BlocksToIDMap = P.BlocksToIDMap) (hP : BlocksSettled nB P) : BlocksSettled nB Q := by
  unfold BlocksSettled at *; rw [h]; exact hP

theorem InstsSettled_congr {nI : Nat → Nat} {P Q : CFGPrinter}
    (h : Q.InstructionToIDMap = P.InstructionToIDMap) (hP : InstsSettled nI P) :
    InstsSettled nI Q := by
  unfold InstsSettled at *; rw [h]; exact hP

theorem initBlocks_of_settled {nB : Nat → Nat} {P : CFGPrinter} (E : Env) (b : Nat)
    (hP : BlocksSettled nB P) : initBlocks E b P.BlocksToIDMap = P.BlocksToIDMap := by
  unfold initBlocks; rw [hP.1]; rfl

theorem initInsts_of_settled {nI : Nat → Nat} {P : CFGPrinter} (E : Env) (a : Nat)
    (hP : InstsSettled nI P) : initInsts E a P.InstructionToIDMap = P.InstructionToIDMap := by
  unfold initInsts; rw [hP.1]; rfl

/-- What one call of `getID(const BasicBlock *)` does, on any printer state. -/
theorem getID_BasicBlock_spec (E : Env) (b : Nat) (P : CFGPrinter) :
    (getID_BasicBlock E b P).1 =
        ⟨IDKind.BasicBlock, (initBlocks E b P.BlocksToIDMap).numOf b⟩ ∧
      (getID_BasicBlock E b P).2.OS = P.OS ∧
      (getID_BasicBlock E b P).2.InstructionToIDMap = P.InstructionToIDMap ∧
      BlocksSettled (initBlocks E b P.BlocksToIDMap).numOf (getID_BasicBlock E b P).2 := by
  refine ⟨?_, rfl, rfl, ?_, ?_⟩
  · simp only [getID_BasicBlock, initBlocks, DenseMap.index_fst]
  · simp only [getID_BasicBlock]
    exact DenseMap.index_snd_empty _ _
  · intro k
    simp only [getID_BasicBlock]
    exact DenseMap.index_snd_numOf _ _ _

/-- What one call of `getID(const Instruction *)` does, on any printer state. -/
theorem getID_Instruction_spec (E : Env) (a : Nat) (P : CFGPrinter) :
    (getID_Instruction E a P).1 =
        ⟨IDKind.SSAValue, (initInsts E a P.InstructionToIDMap).numOf a⟩ ∧
      (getID_Instruction E a P).2.OS = P.OS ∧
      (getID_Instruction E a P).2.BlocksToIDMap = P.BlocksToIDMap ∧
      InstsSettled (initInsts E a P.InstructionToIDMap).numOf (getID_Instruction E a P).2 := by
  refine ⟨?_, rfl, rfl, ?_, ?_⟩
  · simp only [getID_Instruction, initInsts, DenseMap.index_fst]
  · simp only [getID_Instruction]
    exact DenseMap.index_snd_empty _ _
  · intro k
    simp only [getID_Instruction]
    exact DenseMap.index_snd_numOf _ _ _

/-- A block lookup followed by writing the identifier, on an initialised
block cache. -/
theorem write_block_settled (E : Env) (nB : Nat → Nat) (b : Nat) (P : CFGPrinter)
    (hP : BlocksSettled nB P) :
    ((getID_BasicBlock E b P).2.writeID (getID_BasicBlock E b P).1).OS =
        P.OS ++ blockRef nB b ∧
      ((getID_BasicBlock E b P).2.writeID (getID_BasicBlock E b P).1).InstructionToIDMap =
        P.InstructionToIDMap ∧
      BlocksSettled nB ((getID_BasicBlock E b P).2.writeID (getID_BasicBlock E b P).1) := by
  obtain ⟨h1, h2, h3, h4⟩ := getID_BasicBlock_spec E b P
  rw [initBlocks_of_settled E b hP] at h1 h4
  refine ⟨?_, ?_, ?_⟩
  · rw [writeID_OS, h1, h2, hP.2 b]; rfl
  · rw [writeID_Insts, h3]
  · refine BlocksSettled_congr (writeID_Blocks _ _) ⟨h4.1, fun k => ?_⟩
    rw [h4.2 k, hP.2 k]

/-- A value lookup followed by writing the identifier, on an initialised
instruction cache. -/
theorem write_value_settled (E : Env) (nI : Nat → Nat) (v : CFGValue) (P : CFGPrinter)
    (hP : InstsSettled nI P) :
    ((getID_CFGValue E v P).2.writeID (getID_CFGValue E v P).1).OS =
        P.OS ++ valueRef nI v ∧
      ((getID_CFGValue E v P).2.writeID (getID_CFGValue E v P).1).BlocksToIDMap =
        P.BlocksToIDMap ∧
      InstsSettled nI ((getID_CFGValue E v P).2.writeID (getID_CFGValue E v P).1) := by
  cases v with
  | Instruction a =>
    obtain ⟨h1, h2, h3, h4⟩ := getID_Instruction_spec E a P
    rw [initInsts_of_settled E a hP] at h1 h4
    simp only [getID_CFGValue]
    refine ⟨?_, ?_, ?_⟩
    · rw [writeID_OS, h1, h2, hP.2 a]; rfl
    · rw [writeID_Blocks, h3]
    · refine InstsSettled_congr (writeID_Insts _ _) ⟨h4.1, fun k => ?_⟩
      rw [h4.2 k, hP.2 k]
  | BasicBlockArg p =>
    simp only [getID_CFGValue, getID_BasicBlockArg]
    exact ⟨by rw [writeID_OS]; rfl, rfl, InstsSettled_congr (writeID_Insts _ _) hP⟩

/-! ## The `visit` methods on initialised caches -/

theorem visitCallInst_args_rest (E : Env) (nI : Nat → Nat) (l : List CFGValue)
    (P : CFGPrinter) (hP : InstsSettled nI P) :
    (visitCallInst_args E l false P).OS =
        P.OS ++ String.join ((l.map (valueRef nI)).map (fun s => " " ++ s)) ∧
      (visitCallInst_args E l false P).BlocksToIDMap = P.BlocksToIDMap ∧
      InstsSettled nI (visitCallInst_args E l false P) := by
  induction l generalizing P with
  | nil => exact ⟨by simp [visitCallInst_args, join_nil], rfl, hP⟩
  | cons a rest ih =>
    have hw : InstsSettled nI (P.write " ") := InstsSettled_congr (write_Insts _ _) hP
    obtain ⟨h1, h2, h3⟩ := write_value_settled E nI a (P.write " ") hw
    obtain ⟨g1, g2, g3⟩ := ih _ h3
    simp only [visitCallInst_args, Bool.false_eq_true, if_false]
    refine ⟨?_, ?_, g3⟩
    · rw [g1, h1]
      simp only [write_OS, List.map_cons, join_cons, String.append_assoc]
    · rw [g2, h2]; rfl

theorem visitCallInst_args_first (E : Env) (nI : Nat → Nat) (l : List CFGValue)
    (P : CFGPrinter) (hP : InstsSettled nI P) :
    (visitCallInst_args E l true P).OS = P.OS ++ " ".intercalate (l.map (valueRef nI)) ∧
      (visitCallInst_args E l true P).BlocksToIDMap = P.BlocksToIDMap ∧
      InstsSettled nI (visitCallInst_args E l true P) := by
  cases l with
  | nil => exact ⟨by simp [visitCallInst_args, String.intercalate], rfl, hP⟩
  | cons a rest =>
    obtain ⟨h1, h2, h3⟩ := write_value_settled E nI a P hP
    obtain ⟨g1, g2, g3⟩ := visitCallInst_args_rest E nI rest _ h3
    simp only [visitCallInst_args, if_true]
    refine ⟨?_, ?_, g3⟩
    · rw [g1, h1, List.map_cons, intercalate_cons, String.append_assoc]
    · rw [g2, h2]

theorem visitTupleInst_elems_rest (E : Env) (nI : Nat → Nat) (l : List CFGValue)
    (P : CFGPrinter) (hP : InstsSettled nI P) :
    (visitTupleInst_elems E l false P).OS =
        P.OS ++ String.join ((l.map (valueRef nI)).map (fun s => "," ++ s)) ∧
      (visitTupleInst_elems E l false P).BlocksToIDMap = P.BlocksToIDMap ∧
      InstsSettled nI (visitTupleInst_elems E l false P) := by
  induction l generalizing P with
  | nil => exact ⟨by simp [visitTupleInst_elems, join_nil], rfl, hP⟩
  | cons a rest ih =>
    have hw : InstsSettled nI (P.write ",") := InstsSettled_congr (write_Insts _ _) hP
    obtain ⟨h1, h2, h3⟩ := write_value_settled E nI a (P.write ",") hw
    obtain ⟨g1, g2, g3⟩ := ih _ h3
    simp only [visitTupleInst_elems, Bool.false_eq_true, if_false]
    refine ⟨?_, ?_, g3⟩
    · rw [g1, h1]
      simp only [write_OS, List.map_cons, join_cons, String.append_assoc]
    · rw [g2, h2]; rfl

theorem visitTupleInst_elems_first (E : Env) (nI : Nat → Nat) (l : List CFGValue)
    (P : CFGPrinter) (hP : InstsSettled nI P) :
    (visitTupleInst_elems E l true P).OS = P.OS ++ ",".intercalate (l.map (valueRef nI)) ∧
      (visitTupleInst_elems E l true P).BlocksToIDMap = P.BlocksToIDMap ∧
      InstsSettled nI (visitTupleInst_elems E l true P) := by
  cases l with
  | nil => exact ⟨by simp [visitTupleInst_elems, String.intercalate], rfl, hP⟩
  | cons a rest =>
    obtain ⟨h1, h2, h3⟩ := write_value_settled E nI a P hP
    obtain ⟨g1, g2, g3⟩ := visitTupleInst_elems_rest E nI rest _ h3
    simp only [visitTupleInst_elems, if_true]
    refine ⟨?_, ?_, g3⟩
    · rw [g1, h1, List.map_cons, intercalate_cons, String.append_assoc]
    · rw [g2, h2]

theorem visitUncondBranchInst_args_spec (l : List Nat) (P : CFGPrinter) :
    (visitUncondBranchInst_args l P).OS =
        P.OS ++ String.join (l.map (fun a => "%" ++ toString a)) ∧
      (visitUncondBranchInst_args l P).BlocksToIDMap = P.BlocksToIDMap ∧
      (visitUncondBranchInst_args l P).InstructionToIDMap = P.InstructionToIDMap := by
  induction l generalizing P with
  | nil => exact ⟨by simp [visitUncondBranchInst_args, join_nil], rfl, rfl⟩
  | cons a rest ih =>
    obtain ⟨g1, g2, g3⟩ := ih ((P.write "%").write (toString a))
    simp only [visitUncondBranchInst_args]
    refine ⟨?_, ?_, ?_⟩
    · rw [g1]
      simp only [write_OS, List.map_cons, join_cons, String.append_assoc]
    · rw [g2]; rfl
    · rw [g3]; rfl

theorem visitCallInst_spec (E : Env) (nI : Nat → Nat) (f : CFGValue) (args : List CFGValue)
    (P : CFGPrinter) (hP : InstsSettled nI P) :
    (visitCallInst E f args P).OS =
        P.OS ++ ("Call(fn=" ++ valueRef nI f ++
          (if args.isEmpty then "" else
            ",args=(" ++ " ".intercalate (args.map (valueRef nI)) ++ ")") ++ ")") ∧
      (visitCallInst E f args P).BlocksToIDMap = P.BlocksToIDMap ∧
      InstsSettled nI (visitCallInst E f args P) := by
  have hw : InstsSettled nI (P.write "Call(fn=") := InstsSettled_congr (write_Insts _ _) hP
  obtain ⟨h1, h2, h3⟩ := write_value_settled E nI f _ hw
  unfold visitCallInst
  cases hargs : args.isEmpty with
  | true =>
    simp only [Bool.not_true, Bool.false_eq_true, if_false, if_true, write_OS, write_Blocks]
    refine ⟨?_, h2, InstsSettled_congr (write_Insts _ _) h3⟩
    rw [h1]; simp only [write_OS, String.append_assoc, String.empty_append]
  | false =>
    have hw2 := InstsSettled_congr (write_Insts _ ",args=(") h3
    obtain ⟨g1, g2, g3⟩ := visitCallInst_args_first E nI args _ hw2
    simp only [Bool.not_false, if_true, Bool.false_eq_true, if_false, write_OS, write_Blocks]
    refine ⟨?_, ?_, InstsSettled_congr (write_Insts _ _)
      (InstsSettled_congr (write_Insts _ _) g3)⟩
    · rw [g1]; simp only [write_OS, h1, String.append_assoc]
    · rw [g2]; simp only [write_Blocks, h2]

theorem visitLoadInst_spec (E : Env) (nI : Nat → Nat) (lv : CFGValue)
    (P : CFGPrinter) (hP : InstsSettled nI P) :
    (visitLoadInst E lv P).OS = P.OS ++ ("Load(lvalue=" ++ valueRef nI lv ++ ")") ∧
      (visitLoadInst E lv P).BlocksToIDMap = P.BlocksToIDMap ∧
      InstsSettled nI (visitLoadInst E lv P) := by
  have hw : InstsSettled nI (P.write "Load(lvalue=") :=
    InstsSettled_congr (write_Insts _ _) hP
  obtain ⟨h1, h2, h3⟩ := write_value_settled E nI lv _ hw
  unfold visitLoadInst
  refine ⟨?_, ?_, InstsSettled_congr (write_Insts _ _) h3⟩
  · simp only [write_OS, h1, String.append_assoc]
  · simp only [write_Blocks, h2]

theorem visitThisApplyInst_spec (E : Env) (nI : Nat → Nat) (f a : CFGValue)
    (P : CFGPrinter) (hP : InstsSettled nI P) :
    (visitThisApplyInst E f a P).OS =
        P.OS ++ ("ThisApply(fn=" ++ valueRef nI f ++ ",arg=" ++ valueRef nI a ++ ")") ∧
      (visitThisApplyInst E f a P).BlocksToIDMap = P.BlocksToIDMap ∧
      InstsSettled nI (visitThisApplyInst E f a P) := by
  have hw : InstsSettled nI (P.write "ThisApply(fn=") :=
    InstsSettled_congr (write_Insts _ _) hP
  obtain ⟨h1, h2, h3⟩ := write_value_settled E nI f _ hw
  have hw2 := InstsSettled_congr (write_Insts _ ",arg=") h3
  obtain ⟨g1, g2, g3⟩ := write_value_settled E nI a _ hw2
  unfold visitThisApplyInst
  refine ⟨?_, ?_, InstsSettled_congr (write_Insts _ _) g3⟩
  · simp only [write_OS, g1, h1, String.append_assoc]
  · simp only [write_Blocks, g2, h2]

theorem visitTupleInst_spec (E : Env) (nI : Nat → Nat) (es : List CFGValue)
    (P : CFGPrinter) (hP : InstsSettled nI P) :
    (visitTupleInst E es P).OS =
        P.OS ++ ("Tuple(" ++ ",".intercalate (es.map (valueRef nI)) ++ ")") ∧
      (visitTupleInst E es P).BlocksToIDMap = P.BlocksToIDMap ∧
      InstsSettled nI (visitTupleInst E es P) := by
  have hw : InstsSettled nI (P.write "Tuple(") := InstsSettled_congr (write_Insts _ _) hP
  obtain ⟨g1, g2, g3⟩ := visitTupleInst_elems_first E nI es _ hw
  unfold visitTupleInst
  refine ⟨?_, ?_, InstsSettled_congr (write_Insts _ _) g3⟩
  · simp only [write_OS, g1, String.append_assoc]
  · simp only [write_Blocks, g2]

theorem visitReturnInst_spec (E : Env) (nI : Nat → Nat) (rv : Option CFGValue)
    (P : CFGPrinter) (hP : InstsSettled nI P) :
    (visitReturnInst E rv P).OS =
        P.OS ++ ("Return" ++ (match rv with
          | some v => "(" ++ valueRef nI v ++ ")"
          | none => "")) ∧
      (visitReturnInst E rv P).BlocksToIDMap = P.BlocksToIDMap ∧
      InstsSettled nI (visitReturnInst E rv P) := by
  cases rv with
  | none =>
    exact ⟨by simp [visitReturnInst], rfl, InstsSettled_congr (write_Insts _ _) hP⟩
  | some v =>
    have hw : InstsSettled nI ((P.write "Return").write "(") :=
      InstsSettled_congr (write_Insts _ _) (InstsSettled_congr (write_Insts _ _) hP)
    obtain ⟨h1, h2, h3⟩ := write_value_settled E nI v _ hw
    simp only [visitReturnInst]
    refine ⟨?_, ?_, InstsSettled_congr (write_Insts _ _) h3⟩
    · simp only [write_OS, h1, String.append_assoc]
    · simp only [write_Blocks, h2]

theorem visitUncondBranchInst_spec (E : Env) (nB : Nat → Nat) (t : Nat) (args : List Nat)
    (P : CFGPrinter) (hP : BlocksSettled nB P) :
    (visitUncondBranchInst E t args P).OS =
        P.OS ++ ("br " ++ blockRef nB t ++
          (if args.isEmpty then "" else
            "(" ++ String.join (args.map (fun a => "%" ++ toString a)) ++ ")")) ∧
      (visitUncondBranchInst E t args P).InstructionToIDMap = P.InstructionToIDMap ∧
      BlocksSettled nB (visitUncondBranchInst E t args P) := by
  have hw : BlocksSettled nB (P.write "br ") := BlocksSettled_congr (write_Blocks _ _) hP
  obtain ⟨h1, h2, h3⟩ := write_block_settled E nB t _ hw
  unfold visitUncondBranchInst
  cases hargs : args.isEmpty with
  | true =>
    simp only [Bool.not_true, Bool.false_eq_true, if_false, if_true]
    refine ⟨?_, h2, h3⟩
    rw [h1]; simp only [write_OS, String.append_assoc, String.append_empty]
  | false =>
    obtain ⟨g1, g2, g3⟩ := visitUncondBranchInst_args_spec args
      (((getID_BasicBlock E t (P.write "br ")).2.writeID
        (getID_BasicBlock E t (P.write "br ")).1).write "(")
    simp only [Bool.not_false, if_true, Bool.false_eq_true, if_false, write_OS, write_Insts]
    refine ⟨?_, ?_, ?_⟩
    · rw [g1]; simp only [write_OS, h1, String.append_assoc]
    · rw [g3]; simp only [write_Insts, h2]
    · exact BlocksSettled_congr (by rw [write_Blocks, g2, write_Blocks]) h3

theorem visitCondBranchInst_spec (E : Env) (nB : Nat → Nat) (b0 b1 : Nat)
    (P : CFGPrinter) (hP : BlocksSettled nB P) :
    (visitCondBranchInst E b0 b1 P).OS =
        P.OS ++ ("cond_br(cond=?,branches=(" ++ blockRef nB b0 ++ "," ++
          blockRef nB b1 ++ "))") ∧
      (visitCondBranchInst E b0 b1 P).InstructionToIDMap = P.InstructionToIDMap ∧
      BlocksSettled nB (visitCondBranchInst E b0 b1 P) := by
  have hw : BlocksSettled nB (((P.write "cond_br(cond=").write "?").write ",branches=(") :=
    BlocksSettled_congr rfl hP
  obtain ⟨h1, h2, h3⟩ := write_block_settled E nB b0 _ hw
  have hw2 := BlocksSettled_congr (write_Blocks _ ",") h3
  obtain ⟨g1, g2, g3⟩ := write_block_settled E nB b1 _ hw2
  unfold visitCondBranchInst
  refine ⟨?_, ?_, BlocksSettled_congr (write_Blocks _ _) g3⟩
  · simp only [write_OS, g1, h1, String.append_assoc]
    have : "cond_br(cond=" ++ ("?" ++ ",branches=(") = "cond_br(cond=?,branches=(" := by decide
    rw [← String.append_assoc "cond_br(cond=" "?", ← String.append_assoc ("cond_br(cond=" ++ "?"),
      String.append_assoc "cond_br(cond=" "?" ",branches=(", this]
  · simp only [write_Insts, g2, h2]

theorem visit_spec (E : Env) (nB nI : Nat → Nat) (k : InstKind) (P : CFGPrinter)
    (hB : BlocksSettled nB P) (hI : InstsSettled nI P)
    (hk : k = InstKind.Unhandled → E.NDEBUG = true) :
    ∃ P', visit E k P = some P' ∧ P'.OS = P.OS ++ bodyText nB nI k ∧
      BlocksSettled nB P' ∧ InstsSettled nI P' := by
  cases k with
  | CallInst f args =>
    obtain ⟨h1, h2, h3⟩ := visitCallInst_spec E nI f args P hI
    exact ⟨_, rfl, h1, BlocksSettled_congr h2 hB, h3⟩
  | DeclRefInst n =>
    exact ⟨_, rfl, by simp [visitDeclRefInst, bodyText, String.append_assoc],
      BlocksSettled_congr rfl hB, InstsSettled_congr rfl hI⟩
  | IntegerLiteralInst lit =>
    exact ⟨_, rfl, by simp [visitIntegerLiteralInst, bodyText, String.append_assoc],
      BlocksSettled_congr rfl hB, InstsSettled_congr rfl hI⟩
  | LoadInst lv =>
    obtain ⟨h1, h2, h3⟩ := visitLoadInst_spec E nI lv P hI
    exact ⟨_, rfl, h1, BlocksSettled_congr h2 hB, h3⟩
  | ThisApplyInst f a =>
    obtain ⟨h1, h2, h3⟩ := visitThisApplyInst_spec E nI f a P hI
    exact ⟨_, rfl, h1, BlocksSettled_congr h2 hB, h3⟩
  | TupleInst es =>
    obtain ⟨h1, h2, h3⟩ := visitTupleInst_spec E nI es P hI
    exact ⟨_, rfl, h1, BlocksSettled_congr h2 hB, h3⟩
  | TypeOfInst t =>
    exact ⟨_, rfl, by simp [visitTypeOfInst, bodyText, String.append_assoc],
      BlocksSettled_congr rfl hB, InstsSettled_congr rfl hI⟩
  | ReturnInst rv =>
    obtain ⟨h1, h2, h3⟩ := visitReturnInst_spec E nI rv P hI
    exact ⟨_, rfl, h1, BlocksSettled_congr h2 hB, h3⟩
  | UncondBranchInst t args =>
    obtain ⟨h1, h2, h3⟩ := visitUncondBranchInst_spec E nB t args P hB
    exact ⟨_, rfl, h1, h3, InstsSettled_congr h2 hI⟩
  | CondBranchInst c b0 b1 =>
    obtain ⟨h1, h2, h3⟩ := visitCondBranchInst_spec E nB b0 b1 P hB
    exact ⟨_, rfl, h1, h3, InstsSettled_congr h2 hI⟩
  | Unhandled =>
    refine ⟨P, ?_, by simp [bodyText], hB, hI⟩
    simp [visit, visitInstruction, hk rfl]

/-- One call of `print(const Instruction *)` on an initialised block cache
and any instruction cache. -/
theorem printInstruction_spec (E : Env) (nB : Nat → Nat) (I : Instruction) (P : CFGPrinter)
    (hB : BlocksSettled nB P) (hk : I.kind = InstKind.Unhandled → E.NDEBUG = true) :
    ∃ P', printInstruction E I P = some P' ∧
      P'.OS = P.OS ++ instText nB (initInsts E I.addr P.InstructionToIDMap).numOf I ∧
      BlocksSettled nB P' ∧
      InstsSettled (initInsts E I.addr P.InstructionToIDMap).numOf P' := by
  obtain ⟨h1, h2, h3, h4⟩ := getID_Instruction_spec E I.addr (P.write "  ")
  rw [write_Insts] at h1 h4
  have hB1 : BlocksSettled nB (((getID_Instruction E I.addr (P.write "  ")).2.writeID
      (getID_Instruction E I.addr (P.write "  ")).1).write " = ") :=
    BlocksSettled_congr (by rw [write_Blocks, writeID_Blocks, h3, write_Blocks]) hB
  have hI1 : InstsSettled (initInsts E I.addr P.InstructionToIDMap).numOf
      (((getID_Instruction E I.addr (P.write "  ")).2.writeID
      (getID_Instruction E I.addr (P.write "  ")).1).write " = ") :=
    InstsSettled_congr (by rw [write_Insts, writeID_Insts]) h4
  obtain ⟨P2, g1, g2, g3, g4⟩ := visit_spec E nB _ I.kind _ hB1 hI1 hk
  refine ⟨P2.write "\n", ?_, ?_, BlocksSettled_congr (write_Blocks _ _) g3,
    InstsSettled_congr (write_Insts _ _) g4⟩
  · simp only [printInstruction, g1]
  · simp only [write_OS, g2, writeID_OS, h1, h2, instText, valueRef, String.append_assoc]

theorem numOf_initInsts_of_settled (E : Env) (nI : Nat → Nat) (a : Nat) (P : CFGPrinter)
    (hI : InstsSettled nI P) : (initInsts E a P.InstructionToIDMap).numOf = nI := by
  rw [initInsts_of_settled E a hI]
  exact funext hI.2

theorem numOf_initBlocks_of_settled (E : Env) (nB : Nat → Nat) (b : Nat) (P : CFGPrinter)
    (hB : BlocksSettled nB P) : (initBlocks E b P.BlocksToIDMap).numOf = nB := by
  rw [initBlocks_of_settled E b hB]
  exact funext hB.2

theorem printInstructions_settled (E : Env) (nB nI : Nat → Nat) (is : List Instruction)
    (P : CFGPrinter) (hB : BlocksSettled nB P) (hI : InstsSettled nI P)
    (hk : NoAbort E is) :
    ∃ P', printInstructions E is P = some P' ∧
      P'.OS = P.OS ++ String.join (is.map (instText nB nI)) ∧
      BlocksSettled nB P' ∧ InstsSettled nI P' := by
  induction is generalizing P with
  | nil => exact ⟨P, rfl, by simp [join_nil], hB, hI⟩
  | cons I rest ih =>
    obtain ⟨P1, h1, h2, h3, h4⟩ :=
      printInstruction_spec E nB I P hB (hk I (List.mem_cons_self _ _))
    rw [numOf_initInsts_of_settled E nI I.addr P hI] at h2 h4
    obtain ⟨P2, g1, g2, g3, g4⟩ :=
      ih P1 h3 h4 (fun J hJ => hk J (List.mem_cons_of_mem _ hJ))
    refine ⟨P2, ?_, ?_, g3, g4⟩
    · simp only [printInstructions, h1, g1]
    · rw [g2, h2, List.map_cons, join_cons, String.append_assoc]

/-- The instruction loop of a block on an initialised block cache and any
instruction cache. -/
theorem printInstructions_spec (E : Env) (nB : Nat → Nat) (is : List Instruction)
    (P : CFGPrinter) (hB : BlocksSettled nB P) (hk : NoAbort E is) :
    ∃ P', printInstructions E is P = some P' ∧
      P'.OS = P.OS ++
        String.join (is.map (instText nB (instsAfter E is P.InstructionToIDMap).numOf)) ∧
      BlocksSettled nB P' ∧
      (is = [] → P'.InstructionToIDMap = P.InstructionToIDMap) ∧
      (is ≠ [] → InstsSettled (instsAfter E is P.InstructionToIDMap).numOf P') := by
  cases is with
  | nil => exact ⟨P, rfl, by simp [join_nil], hB, fun _ => rfl, fun h => absurd rfl h⟩
  | cons I rest =>
    obtain ⟨P1, h1, h2, h3, h4⟩ :=
      printInstruction_spec E nB I P hB (hk I (List.mem_cons_self _ _))
    obtain ⟨P2, g1, g2, g3, g4⟩ :=
      printInstructions_settled E nB _ rest P1 h3 h4
        (fun J hJ => hk J (List.mem_cons_of_mem _ hJ))
    refine ⟨P2, ?_, ?_, g3, fun h => absurd h (List.cons_ne_nil _ _), fun _ => g4⟩
    · simp only [printInstructions, h1, g1]
    · rw [g2, h2, List.map_cons, join_cons, String.append_assoc]; rfl

theorem printPreds_spec (E : Env) (nB : Nat → Nat) (ps : List Nat) (P : CFGPrinter)
    (hB : BlocksSettled nB P) :
    (printPreds E ps P).OS = P.OS ++ String.join (ps.map (fun p => " " ++ blockRef nB p)) ∧
      (printPreds E ps P).InstructionToIDMap = P.InstructionToIDMap ∧
      BlocksSettled nB (printPreds E ps P) := by
  induction ps generalizing P with
  | nil => exact ⟨by simp [printPreds, join_nil], rfl, hB⟩
  | cons p rest ih =>
    have hw : BlocksSettled nB (P.write " ") := BlocksSettled_congr (write_Blocks _ _) hB
    obtain ⟨h1, h2, h3⟩ := write_block_settled E nB p _ hw
    obtain ⟨g1, g2, g3⟩ := ih _ h3
    simp only [printPreds]
    refine ⟨?_, ?_, g3⟩
    · rw [g1, h1]
      simp only [write_OS, List.map_cons, join_cons, String.append_assoc]
    · rw [g2, h2]; rfl

/-- One call of `print(const BasicBlock *)` on any printer state. -/
theorem printBasicBlock_spec (E : Env) (BB : BasicBlock) (P : CFGPrinter)
    (hk : NoAbort E BB.insts) :
    ∃ P', printBasicBlock E BB P = some P' ∧
      P'.OS = P.OS ++ blockText (initBlocks E BB.addr P.BlocksToIDMap).numOf
        (instsAfter E BB.insts P.InstructionToIDMap).numOf BB ∧
      BlocksSettled (initBlocks E BB.addr P.BlocksToIDMap).numOf P' ∧
      (BB.insts = [] → P'.InstructionToIDMap = P.InstructionToIDMap) ∧
      (BB.insts ≠ [] →
        InstsSettled (instsAfter E BB.insts P.InstructionToIDMap).numOf P') := by
  obtain ⟨h1, h2, h3, h4⟩ := getID_BasicBlock_spec E BB.addr P
  have hB1 : BlocksSettled (initBlocks E BB.addr P.BlocksToIDMap).numOf
      ((((getID_BasicBlock E BB.addr P).2.writeID (getID_BasicBlock E BB.addr P).1).write
        ":\t").write " ; Preds:") := BlocksSettled_congr rfl h4
  obtain ⟨p1, p2, p3⟩ := printPreds_spec E _ BB.Preds _ hB1
  have hB2 := BlocksSettled_congr (write_Blocks (printPreds E BB.Preds
    ((((getID_BasicBlock E BB.addr P).2.writeID (getID_BasicBlock E BB.addr P).1).write
        ":\t").write " ; Preds:")) "\n") p3
  obtain ⟨P4, g1, g2, g3, g4, g5⟩ := printInstructions_spec E _ BB.insts _ hB2 hk
  have hImap : (printPreds E BB.Preds
      ((((getID_BasicBlock E BB.addr P).2.writeID (getID_BasicBlock E BB.addr P).1).write
        ":\t").write " ; Preds:") |>.write "\n").InstructionToIDMap =
      P.InstructionToIDMap := by
    rw [write_Insts, p2, write_Insts, write_Insts, writeID_Insts, h3]
  rw [hImap] at g2 g4 g5
  refine ⟨P4.write "\n", ?_, ?_, BlocksSettled_congr (write_Blocks _ _) g3, ?_, ?_⟩
  · simp only [printBasicBlock, g1]
  · rw [write_OS, g2, write_OS, p1]
    simp only [write_OS, writeID_OS, h1, h2, blockText, blockRef, String.append_assoc]
  · intro h; rw [write_Insts]; exact g4 h
  · intro h; exact InstsSettled_congr (write_Insts _ _) (g5 h)

/-! ## Printing a whole graph -/

theorem mem_instructions (G : CFG) (B : BasicBlock) (I : Instruction)
    (hB : B ∈ G.blocks) (hI : I ∈ B.insts) : I ∈ G.instructions := by
  unfold CFG.instructions
  rw [List.mem_flatten]
  exact ⟨B.insts, List.mem_map_of_mem _ hB, hI⟩

theorem numOf_initBlocks_of_lazy (E : Env) (G : CFG) (nB : Nat → Nat) (b : Nat)
    (P : CFGPrinter) (hE : E.blockParent b = G) (hB : BlocksLazy G nB P) :
    (initBlocks E b P.BlocksToIDMap).numOf = nB := by
  rcases hB with hB | ⟨h1, h2⟩
  · exact numOf_initBlocks_of_settled E nB b P hB
  · rw [h1, h2]
    simp only [initBlocks, DenseMap.empty, List.isEmpty_nil, if_true, hE, CFG.blockNumber]

theorem numOf_initInsts_of_lazy (E : Env) (G : CFG) (nI : Nat → Nat) (a : Nat)
    (P : CFGPrinter) (hE : E.blockParent (E.instParent a) = G) (hI : InstsLazy G nI P) :
    (initInsts E a P.InstructionToIDMap).numOf = nI := by
  rcases hI with hI | ⟨h1, h2⟩
  · exact numOf_initInsts_of_settled E nI a P hI
  · rw [h1, h2]
    simp only [initInsts, DenseMap.empty, List.isEmpty_nil, if_true, hE, CFG.valueNumber]

theorem blockText_no_insts (nB nI nI' : Nat → Nat) (BB : BasicBlock) (h : BB.insts = []) :
    blockText nB nI BB = blockText nB nI' BB := by
  simp only [blockText, h, List.map_nil]

/-- One call of `print(const BasicBlock *)` on a block of `G`, in a printer
whose caches are empty or were initialised from `G`. -/
theorem printBasicBlock_lazy (E : Env) (G : CFG) (nB nI : Nat → Nat) (BB : BasicBlock)
    (P : CFGPrinter) (hE : E.Owns G) (hmem : BB ∈ G.blocks) (hk : NoAbort E BB.insts)
    (hB : BlocksLazy G nB P) (hI : InstsLazy G nI P) :
    ∃ P', printBasicBlock E BB P = some P' ∧ P'.OS = P.OS ++ blockText nB nI BB ∧
      BlocksSettled nB P' ∧ InstsLazy G nI P' := by
  obtain ⟨P1, h1, h2, h3, h4, h5⟩ := printBasicBlock_spec E BB P hk
  rw [numOf_initBlocks_of_lazy E G nB BB.addr P (hE.1 BB hmem) hB] at h2 h3
  cases hins : BB.insts with
  | nil =>
    refine ⟨P1, h1, ?_, h3, ?_⟩
    · rw [h2]; congr 1; exact blockText_no_insts _ _ _ _ hins
    · rcases hI with hI | ⟨g1, g2⟩
      · exact Or.inl (InstsSettled_congr (h4 hins) hI)
      · exact Or.inr ⟨by rw [h4 hins, g1], g2⟩
  | cons I rest =>
    have hne : BB.insts ≠ [] := by rw [hins]; exact List.cons_ne_nil _ _
    have hIG : I ∈ G.instructions :=
      mem_instructions G BB I hmem (by rw [hins]; exact List.mem_cons_self _ _)
    have hnum : (instsAfter E BB.insts P.InstructionToIDMap).numOf = nI := by
      rw [hins]
      exact numOf_initInsts_of_lazy E G nI I.addr P (hE.2 I hIG) hI
    rw [hnum] at h2 h5
    exact ⟨P1, h1, h2, h3, Or.inl (h5 hne)⟩

theorem printBlocks_lazy (E : Env) (G : CFG) (nB nI : Nat → Nat) (bs : List BasicBlock)
    (P : CFGPrinter) (hE : E.Owns G) (hsub : ∀ B ∈ bs, B ∈ G.blocks)
    (hk : ∀ B ∈ bs, NoAbort E B.insts)
    (hB : BlocksLazy G nB P) (hI : InstsLazy G nI P) :
    ∃ P', printBlocks E bs P = some P' ∧
      P'.OS = P.OS ++ String.join (bs.map (blockText nB nI)) ∧
      BlocksLazy G nB P' ∧ InstsLazy G nI P' := by
  induction bs generalizing P with
  | nil => exact ⟨P, rfl, by simp [join_nil], hB, hI⟩
  | cons B rest ih =>
    obtain ⟨P1, h1, h2, h3, h4⟩ :=
      printBasicBlock_lazy E G nB nI B P hE (hsub B (List.mem_cons_self _ _))
        (hk B (List.mem_cons_self _ _)) hB hI
    obtain ⟨P2, g1, g2, g3, g4⟩ :=
      ih P1 (fun C hC => hsub C (List.mem_cons_of_mem _ hC))
        (fun C hC => hk C (List.mem_cons_of_mem _ hC)) (Or.inl h3) h4
    refine ⟨P2, ?_, ?_, g3, g4⟩
    · simp only [printBlocks, h1, g1]
    · rw [g2, h2, List.map_cons, join_cons, String.append_assoc]

/-- The text `CFG::print` writes: every block rendered under the one pair
of numberings computed from the graph. -/
theorem CFG_print_spec (E : Env) (G : CFG) (OS : String) (hE : E.Owns G)
    (hk : NoAbort E G.instructions) :
    CFG.print E G OS =
      some (OS ++ String.join (G.blocks.map (blockText G.blockNumber G.valueNumber))) := by
  obtain ⟨P', h1, h2, _, _⟩ :=
    printBlocks_lazy E G G.blockNumber G.valueNumber G.blocks (CFGPrinter.new OS) hE
      (fun B hB => hB)
      (fun B hB I hI => hk I (mem_instructions G B I hB hI))
      (Or.inr ⟨rfl, rfl⟩) (Or.inr ⟨rfl, rfl⟩)
  simp only [CFG.print, h1, Option.map_some', h2]
  rfl

/-! ## Helpers for the results on single instructions -/

theorem Env.ofGraph_Owns (G : CFG) (b : Nat) : (Env.ofGraph G b).Owns G :=
  ⟨fun _ _ => rfl, fun _ _ => rfl⟩

theorem printInstruction_eq (E : Env) (I : Instruction) (P : CFGPrinter) :
    printInstruction E I P =
      (visit E I.kind (afterLabel E I P)).map (fun Q => Q.write "\n") := by
  show (match visit E I.kind (afterLabel E I P) with
    | some P2 => some (P2.write "\n")
    | none => none) = _
  cases visit E I.kind (afterLabel E I P) <;> rfl

theorem afterLabel_spec (E : Env) (I : Instruction) (P : CFGPrinter) :
    (afterLabel E I P).OS =
        P.OS ++ ("  " ++ valueRef (initInsts E I.addr P.InstructionToIDMap).numOf
          (CFGValue.Instruction I.addr) ++ " = ") ∧
      (afterLabel E I P).BlocksToIDMap = P.BlocksToIDMap ∧
      InstsSettled (initInsts E I.addr P.InstructionToIDMap).numOf (afterLabel E I P) := by
  obtain ⟨h1, h2, h3, h4⟩ := getID_Instruction_spec E I.addr (P.write "  ")
  rw [write_Insts] at h1 h4
  unfold afterLabel
  refine ⟨?_, ?_, InstsSettled_congr (by rw [write_Insts, writeID_Insts]) h4⟩
  · simp only [write_OS, writeID_OS, h1, h2, valueRef, String.append_assoc]
  · rw [write_Blocks, writeID_Blocks, h3, write_Blocks]

theorem blockRef_eq (nB : Nat → Nat) (b : Nat) : blockRef nB b = "bb" ++ toString (nB b) := by
  simp [blockRef, ID.text, writeID]

theorem valueRef_inst_eq (nI : Nat → Nat) (a : Nat) :
    valueRef nI (CFGValue.Instruction a) = "%" ++ toString (nI a) := by
  simp [valueRef, ID.text, writeID]

theorem valueRef_arg_eq (nI : Nat → Nat) (p : Nat) :
    valueRef nI (CFGValue.BasicBlockArg p) = "%4294967295" := by
  simp only [valueRef, ID.text, writeID, String.empty_append]
  decide

/-! ## Results -/

set_option maxRecDepth 20000

/-- C1, as the code has it: on a registry whose instruction cache is empty
(whatever the block cache holds: block identifiers may or may not have been
requested before), the identifier of the `j`-th instruction of the `i`-th
block of a graph with pairwise distinct instructions is a value identifier
whose number is the count of instructions in the blocks before it plus `j`,
reduced modulo `2 ^ 32` as the `unsigned` counter is. -/
theorem C1_value_identifier_number (E : Env) (G : CFG) (OS : String) (BM : DenseMap)
    (i j : Nat) (b : BasicBlock) (I : Instruction)
    (hnd : (G.instructions.map Instruction.addr).Nodup)
    (hb : G.blocks[i]? = some b) (hI : b.insts[j]? = some I)
    (hparent : E.blockParent (E.instParent I.addr) = G) :
    (getID_Instruction E I.addr ⟨OS, BM, ⟨[]⟩⟩).1 =
      ⟨IDKind.SSAValue,
        (((G.blocks.take i).map (fun B => B.insts.length)).sum + j) % UNSIGNED_RANGE⟩ :=
  getID_Instruction_fresh_number E G OS BM _ I hnd
    (flatten_insts_getElem? G.blocks i j b I hb hI) hparent

/-- C1 at the second instruction of the second block of `sampleGraph`, after
a block identifier was requested: two instructions precede the block, so the
number is 3. -/
theorem C1_value_identifier_number_witness :
    (sampleGraph.instructions.map Instruction.addr).Nodup ∧
    sampleGraph.blocks[1]? = some ⟨101, [100, 101],
      [⟨202, InstKind.UncondBranchInst 100 [1, 2]⟩,
       ⟨203, InstKind.CondBranchInst (CFGValue.Instruction 200) 101 100⟩,
       ⟨204, InstKind.IntegerLiteralInst ⟨8, 255⟩⟩]⟩ ∧
    (getID_Instruction (Env.ofGraph sampleGraph 100) 203
        ⟨"", (getID_BasicBlock (Env.ofGraph sampleGraph 100) 101
          (CFGPrinter.new "")).2.BlocksToIDMap, ⟨[]⟩⟩).1 =
      ⟨IDKind.SSAValue, 3⟩ :=
  ⟨by decide, rfl,
    C1_value_identifier_number (Env.ofGraph sampleGraph 100) sampleGraph ""
      (getID_BasicBlock (Env.ofGraph sampleGraph 100) 101 (CFGPrinter.new "")).2.BlocksToIDMap
      1 1 _ ⟨203, InstKind.CondBranchInst (CFGValue.Instruction 200) 101 100⟩
      (by decide) rfl rfl rfl⟩

/-- C1 fails as stated: in `wideGraph`, one block of 2^32 + 1 pairwise
distinct instructions, the instruction at position 2^32 is given the number
0, not 2^32. -/
theorem C1_counterexample :
    (wideGraph.blocks.map BasicBlock.addr).Nodup ∧
    (wideGraph.instructions.map Instruction.addr).Nodup ∧
    wideGraph.blocks[0]? = some wideBlock ∧
    wideBlock.insts[4294967296]? = some ⟨4294967298, InstKind.ReturnInst none⟩ ∧
    (getID_Instruction (Env.ofGraph wideGraph 1) 4294967298 (CFGPrinter.new "")).1 =
      ⟨IDKind.SSAValue, 0⟩ ∧
    (getID_Instruction (Env.ofGraph wideGraph 1) 4294967298 (CFGPrinter.new "")).1 ≠
      ⟨IDKind.SSAValue,
        ((wideGraph.blocks.take 0).map (fun B => B.insts.length)).sum + 4294967296⟩ := by
  have haddr : wideGraph.instructions.map Instruction.addr =
      (List.range 4294967297).map (fun a => a + 2) := by
    simp only [CFG.instructions, wideGraph, wideBlock, List.map_cons, List.map_nil,
      List.flatten_cons, List.flatten_nil, List.append_nil, List.map_map]
    rfl
  have hnd : (wideGraph.instructions.map Instruction.addr).Nodup := by
    rw [haddr]
    exact (List.nodup_range _).map (fun x y h => by omega)
  have hget : wideBlock.insts[4294967296]? = some ⟨4294967298, InstKind.ReturnInst none⟩ := by
    simp only [wideBlock]
    rw [List.getElem?_map, List.getElem?_range (by omega)]
    rfl
  have hget2 : wideGraph.instructions[4294967296]? =
      some ⟨4294967298, InstKind.ReturnInst none⟩ := by
    have : wideGraph.instructions = wideBlock.insts := by
      simp only [CFG.instructions, wideGraph, List.map_cons, List.map_nil,
        List.flatten_cons, List.flatten_nil, List.append_nil]
    rw [this]; exact hget
  have hnum := getID_Instruction_fresh_number (Env.ofGraph wideGraph 1) wideGraph "" ⟨[]⟩
    4294967296 ⟨4294967298, InstKind.ReturnInst none⟩ hnd hget2 rfl
  have hmod : 4294967296 % UNSIGNED_RANGE = 0 := by
    unfold UNSIGNED_RANGE; norm_num
  rw [hmod] at hnum
  refine ⟨?_, hnd, rfl, hget, hnum, ?_⟩
  · simp [wideGraph]
  · change (getID_Instruction (Env.ofGraph wideGraph 1) 4294967298 ⟨"", ⟨[]⟩, ⟨[]⟩⟩).1 ≠ _
    rw [hnum]
    intro h
    have := congrArg ID.Number h
    simp at this

/-- C2, as the code has it: on a fresh registry the identifier of the
`i`-th block of a graph with pairwise distinct blocks is a block identifier
whose number is `i` reduced modulo `2 ^ 32`, and it is written as `bb`
followed by that number in decimal. -/
theorem C2_block_identifier_number (E : Env) (G : CFG) (OS : String) (i : Nat)
    (b : BasicBlock)
    (hnd : (G.blocks.map BasicBlock.addr).Nodup)
    (hb : G.blocks[i]? = some b)
    (hparent : E.blockParent b.addr = G) :
    (getID_BasicBlock E b.addr (CFGPrinter.new OS)).1 =
        ⟨IDKind.BasicBlock, i % UNSIGNED_RANGE⟩ ∧
      ∀ OS1 : String, writeID OS1 (getID_BasicBlock E b.addr (CFGPrinter.new OS)).1 =
        OS1 ++ "bb" ++ toString (i % UNSIGNED_RANGE) := by
  have h := getID_BasicBlock_fresh_number E G OS ⟨[]⟩ i b hnd hb hparent
  refine ⟨h, fun OS1 => ?_⟩
  change writeID OS1 (getID_BasicBlock E b.addr ⟨OS, ⟨[]⟩, ⟨[]⟩⟩).1 = _
  rw [h]
  rfl

/-- C2 at the second block of `sampleGraph`: number 1, written `bb1`. -/
theorem C2_block_identifier_number_witness :
    (sampleGraph.blocks.map BasicBlock.addr).Nodup ∧
    (getID_BasicBlock (Env.ofGraph sampleGraph 100) 101 (CFGPrinter.new "")).1 =
      ⟨IDKind.BasicBlock, 1⟩ ∧
    writeID "" (getID_BasicBlock (Env.ofGraph sampleGraph 100) 101 (CFGPrinter.new "")).1 =
      "bb1" :=
  ⟨by decide,
    (C2_block_identifier_number (Env.ofGraph sampleGraph 100) sampleGraph "" 1
      ⟨101, [100, 101],
        [⟨202, InstKind.UncondBranchInst 100 [1, 2]⟩,
         ⟨203, InstKind.CondBranchInst (CFGValue.Instruction 200) 101 100⟩,
         ⟨204, InstKind.IntegerLiteralInst ⟨8, 255⟩⟩]⟩ (by decide) rfl rfl).1,
    (C2_block_identifier_number (Env.ofGraph sampleGraph 100) sampleGraph "" 1
      ⟨101, [100, 101],
        [⟨202, InstKind.UncondBranchInst 100 [1, 2]⟩,
         ⟨203, InstKind.CondBranchInst (CFGValue.Instruction 200) 101 100⟩,
         ⟨204, InstKind.IntegerLiteralInst ⟨8, 255⟩⟩]⟩ (by decide) rfl rfl).2 ""⟩

/-- C2 fails as stated: in `longGraph`, 2^32 + 1 pairwise distinct blocks,
the block at position 2^32 is given the number 0 and is written `bb0`, the
text of the first block, not `bb4294967296`. -/
theorem C2_counterexample :
    (longGraph.blocks.map BasicBlock.addr).Nodup ∧
    longGraph.blocks[4294967296]? = some ⟨4294967297, [], []⟩ ∧
    (getID_BasicBlock (Env.ofGraph longGraph 1) 4294967297 (CFGPrinter.new "")).1 =
      ⟨IDKind.BasicBlock, 0⟩ ∧
    (getID_BasicBlock (Env.ofGraph longGraph 1) 4294967297 (CFGPrinter.new "")).1 ≠
      ⟨IDKind.BasicBlock, 4294967296⟩ ∧
    writeID "" (getID_BasicBlock (Env.ofGraph longGraph 1) 4294967297
      (CFGPrinter.new "")).1 = "bb0" := by
  have haddr : longGraph.blocks.map BasicBlock.addr =
      (List.range 4294967297).map (fun a => a + 1) := by
    simp only [longGraph, List.map_map]
    rfl
  have hnd : (longGraph.blocks.map BasicBlock.addr).Nodup := by
    rw [haddr]
    exact (List.nodup_range _).map (fun x y h => by omega)
  have hget : longGraph.blocks[4294967296]? = some ⟨4294967297, [], []⟩ := by
    simp only [longGraph]
    rw [List.getElem?_map, List.getElem?_range (by omega)]
    rfl
  have hnum := getID_BasicBlock_fresh_number (Env.ofGraph longGraph 1) longGraph "" ⟨[]⟩
    4294967296 ⟨4294967297, [], []⟩ hnd hget rfl
  have hmod : 4294967296 % UNSIGNED_RANGE = 0 := by
    unfold UNSIGNED_RANGE; norm_num
  rw [hmod] at hnum
  have hnum2 : (getID_BasicBlock (Env.ofGraph longGraph 1) 4294967297
      (CFGPrinter.new "")).1 = ⟨IDKind.BasicBlock, 0⟩ := hnum
  refine ⟨hnd, hget, hnum2, ?_, ?_⟩
  · rw [hnum2]
    intro h
    have := congrArg ID.Number h
    simp at this
  · rw [hnum2]
    decide

/-- C3: printing the graph of one block, without predecessors, that holds
one `return` without a value appends exactly
`bb0:<TAB> ; Preds:<LF>  %0 = Return<LF><LF>` to the stream. -/
theorem C3_single_return_graph (E : Env) (b a : Nat) (OS : String)
    (hE : E.Owns (returnGraph b a)) :
    CFG.print E (returnGraph b a) OS = some (OS ++ "bb0:\t ; Preds:\n  %0 = Return\n\n") := by
  have hk : NoAbort E (returnGraph b a).instructions := by
    intro I hI hkind
    simp only [CFG.instructions, returnGraph, List.map_cons, List.map_nil, List.flatten_cons,
      List.flatten_nil, List.append_nil, List.mem_singleton] at hI
    subst hI
    cases hkind
  rw [CFG_print_spec E _ OS hE hk]
  have hb : (returnGraph b a).blockNumber b = 0 := by
    simp [CFG.blockNumber, returnGraph, numberBlocks, DenseMap.numOf, DenseMap.find_assign]
  have ha : (returnGraph b a).valueNumber a = 0 := by
    simp [CFG.valueNumber, returnGraph, numberAllInsts, numberInsts, DenseMap.numOf,
      DenseMap.find_assign]
  congr 2
  simp only [returnGraph, List.map_cons, List.map_nil, join_cons, join_nil, blockText,
    instText, bodyText, blockRef_eq, valueRef_inst_eq, String.append_empty,
    String.append_assoc]
  change "bb" ++ (toString ((returnGraph b a).blockNumber b) ++ (":\t" ++ (" ; Preds:" ++
    ("\n" ++ ("  " ++ ("%" ++ (toString ((returnGraph b a).valueNumber a) ++ (" = " ++
      ("Return" ++ ("\n" ++ "\n")))))))))) = _
  rw [hb, ha]
  decide

/-- C3 for the block at address 100 and the instruction at address 200, on
an empty stream. -/
theorem C3_single_return_graph_witness :
    (Env.ofGraph (returnGraph 100 200) 100).Owns (returnGraph 100 200) ∧
    CFG.print (Env.ofGraph (returnGraph 100 200) 100) (returnGraph 100 200) "" =
      some ("" ++ "bb0:\t ; Preds:\n  %0 = Return\n\n") :=
  ⟨⟨fun _ _ => rfl, fun _ _ => rfl⟩,
    C3_single_return_graph (Env.ofGraph (returnGraph 100 200) 100) 100 200 ""
      ⟨fun _ _ => rfl, fun _ _ => rfl⟩⟩

/-- C4: for every block, on any printer state, `print(const BasicBlock *)`
appends the block's identifier, `:`, a tab, ` ; Preds:`, then a space and
the identifier of each predecessor in the order `getPreds()` yields them,
then a newline; then for each instruction in definition order two spaces,
its identifier, ` = `, the text of its `visit` method and a newline; then
one more newline. Without predecessors the first line ends right after
`Preds:`. Here `nB` and `nI` are the numberings the two caches report once
initialised, and no instruction may make `visitInstruction` abort. -/
theorem C4_block_shape (E : Env) (BB : BasicBlock) (P : CFGPrinter) (nB nI : Nat → Nat)
    (hB : nB = (initBlocks E BB.addr P.BlocksToIDMap).numOf)
    (hI : nI = (instsAfter E BB.insts P.InstructionToIDMap).numOf)
    (hk : NoAbort E BB.insts) :
    (printBasicBlock E BB P).map CFGPrinter.OS =
        some (P.OS ++ (blockRef nB BB.addr ++ ":" ++ "\t" ++ " ; Preds:" ++
          String.join (BB.Preds.map (fun p => " " ++ blockRef nB p)) ++ "\n" ++
          String.join (BB.insts.map (fun I =>
            "  " ++ valueRef nI (CFGValue.Instruction I.addr) ++ " = " ++
              bodyText nB nI I.kind ++ "\n")) ++ "\n")) ∧
      (BB.Preds = [] →
        (printBasicBlock E BB P).map CFGPrinter.OS =
          some (P.OS ++ (blockRef nB BB.addr ++ ":\t ; Preds:\n" ++
            String.join (BB.insts.map (fun I =>
              "  " ++ valueRef nI (CFGValue.Instruction I.addr) ++ " = " ++
                bodyText nB nI I.kind ++ "\n")) ++ "\n"))) := by
  obtain ⟨P1, h1, h2, _, _, _⟩ := printBasicBlock_spec E BB P hk
  rw [← hB, ← hI] at h2
  have hmain : (printBasicBlock E BB P).map CFGPrinter.OS =
      some (P.OS ++ (blockRef nB BB.addr ++ ":" ++ "\t" ++ " ; Preds:" ++
        String.join (BB.Preds.map (fun p => " " ++ blockRef nB p)) ++ "\n" ++
        String.join (BB.insts.map (fun I =>
          "  " ++ valueRef nI (CFGValue.Instruction I.addr) ++ " = " ++
            bodyText nB nI I.kind ++ "\n")) ++ "\n")) := by
    rw [h1, Option.map_some', h2]
    have hf : (fun I : Instruction =>
        "  " ++ valueRef nI (CFGValue.Instruction I.addr) ++ " = " ++
          bodyText nB nI I.kind ++ "\n") = instText nB nI := rfl
    have hc : ∀ s : String, ":" ++ ("\t" ++ s) = ":\t" ++ s := fun s => by
      rw [← String.append_assoc]; rfl
    rw [hf]
    simp only [blockText, String.append_assoc, hc]
  refine ⟨hmain, fun hp => ?_⟩
  rw [hmain, hp]
  have hlit : (":" ++ "\t" ++ " ; Preds:" ++ "\n" : String) = ":\t ; Preds:\n" := by decide
  have hc : ∀ s : String,
      ":" ++ ("\t" ++ (" ; Preds:" ++ ("\n" ++ s))) = ":\t ; Preds:\n" ++ s := fun s => by
    rw [← hlit]; simp only [String.append_assoc]
  simp only [List.map_nil, join_nil, String.append_assoc, String.empty_append, hc]

/-- C4 at the second block of `sampleGraph` on a fresh printer. -/
theorem C4_block_shape_witness :
    NoAbort (Env.ofGraph sampleGraph 100)
      [⟨202, InstKind.UncondBranchInst 100 [1, 2]⟩,
       ⟨203, InstKind.CondBranchInst (CFGValue.Instruction 200) 101 100⟩,
       ⟨204, InstKind.IntegerLiteralInst ⟨8, 255⟩⟩] ∧
    (printBasicBlock (Env.ofGraph sampleGraph 100)
      ⟨101, [100, 101],
        [⟨202, InstKind.UncondBranchInst 100 [1, 2]⟩,
         ⟨203, InstKind.CondBranchInst (CFGValue.Instruction 200) 101 100⟩,
         ⟨204, InstKind.IntegerLiteralInst ⟨8, 255⟩⟩]⟩
      (CFGPrinter.new "")).map CFGPrinter.OS =
      some ("bb1:\t ; Preds: bb0 bb1\n  %2 = br bb0(%1%2)\n" ++
        "  %3 = cond_br(cond=?,branches=(bb1,bb0))\n  %4 = Integer(val=-1,width=8)\n\n") :=
  ⟨by unfold NoAbort; decide,
    (C4_block_shape (Env.ofGraph sampleGraph 100)
      ⟨101, [100, 101],
        [⟨202, InstKind.UncondBranchInst 100 [1, 2]⟩,
         ⟨203, InstKind.CondBranchInst (CFGValue.Instruction 200) 101 100⟩,
         ⟨204, InstKind.IntegerLiteralInst ⟨8, 255⟩⟩]⟩
      (CFGPrinter.new "") _ _ rfl rfl (by unfold NoAbort; decide)).1.trans (by decide)⟩

/-- C5: in one `CFG::print` of a graph whose blocks and instructions record
it as their owner, the whole text is the blocks rendered in order under one
block numbering `nB` and one instruction numbering `nI`: the identifier at
the start of an instruction's line and every operand that refers to that
instruction are both `%` followed by `nI` of its address, and a block's
header, every predecessor entry, branch target and conditional-branch arm
that refers to it are all `bb` followed by `nB` of its address. -/
theorem C5_identifiers_consistent (E : Env) (G : CFG) (OS : String) (hE : E.Owns G)
    (hk : NoAbort E G.instructions) :
    CFG.print E G OS =
        some (OS ++ String.join (G.blocks.map (blockText G.blockNumber G.valueNumber))) ∧
      (∀ BB : BasicBlock, blockText G.blockNumber G.valueNumber BB =
        blockRef G.blockNumber BB.addr ++ ":\t" ++ " ; Preds:" ++
          String.join (BB.Preds.map (fun p => " " ++ blockRef G.blockNumber p)) ++ "\n" ++
          String.join (BB.insts.map (instText G.blockNumber G.valueNumber)) ++ "\n") ∧
      (∀ I : Instruction, instText G.blockNumber G.valueNumber I =
        "  " ++ valueRef G.valueNumber (CFGValue.Instruction I.addr) ++ " = " ++
          bodyText G.blockNumber G.valueNumber I.kind ++ "\n") ∧
      (∀ a : Nat, valueRef G.valueNumber (CFGValue.Instruction a) =
        "%" ++ toString (G.valueNumber a)) ∧
      (∀ b : Nat, blockRef G.blockNumber b = "bb" ++ toString (G.blockNumber b)) :=
  ⟨CFG_print_spec E G OS hE hk, fun _ => rfl, fun _ => rfl,
    fun a => valueRef_inst_eq _ a, fun b => blockRef_eq _ b⟩

/-- C5 on `sampleGraph`: the call in block 100 refers forward to `%1`, the
tuple to itself and to `%4` of the later block, the conditional branch back
to `bb0`, each with the text of the definition. -/
theorem C5_identifiers_consistent_witness :
    (Env.ofGraph sampleGraph 100).Owns sampleGraph ∧
    NoAbort (Env.ofGraph sampleGraph 100) sampleGraph.instructions ∧
    CFG.print (Env.ofGraph sampleGraph 100) sampleGraph "" =
      some ("bb0:\t ; Preds:\n  %0 = Call(fn=%1,args=(%0 %4294967295))\n" ++
        "  %1 = Tuple(%1,%4)\n\nbb1:\t ; Preds: bb0 bb1\n  %2 = br bb0(%1%2)\n" ++
        "  %3 = cond_br(cond=?,branches=(bb1,bb0))\n  %4 = Integer(val=-1,width=8)\n\n") :=
  ⟨⟨fun _ _ => rfl, fun _ _ => rfl⟩, by unfold NoAbort; decide,
    (C5_identifiers_consistent (Env.ofGraph sampleGraph 100) sampleGraph ""
      ⟨fun _ _ => rfl, fun _ _ => rfl⟩ (by unfold NoAbort; decide)).1.trans (by decide)⟩

/-- What `visitUncondBranchInst` writes on any printer state: the target is
looked up first, which initialises the block cache if need be. -/
theorem visitUncondBranchInst_any (E : Env) (t : Nat) (args : List Nat) (P : CFGPrinter) :
    (visitUncondBranchInst E t args P).OS =
      P.OS ++ ("br " ++ blockRef (initBlocks E t P.BlocksToIDMap).numOf t ++
        (if args.isEmpty then "" else
          "(" ++ String.join (args.map (fun a => "%" ++ toString a)) ++ ")")) := by
  obtain ⟨h1, h2, _, _⟩ := getID_BasicBlock_spec E t (P.write "br ")
  rw [write_Blocks] at h1
  unfold visitUncondBranchInst
  cases hargs : args.isEmpty with
  | true =>
    simp only [Bool.not_true, Bool.false_eq_true, if_false, if_true, writeID_OS, h1, h2,
      write_OS, blockRef, String.append_assoc, String.append_empty]
  | false =>
    obtain ⟨g1, _, _⟩ := visitUncondBranchInst_args_spec args
      (((getID_BasicBlock E t (P.write "br ")).2.writeID
        (getID_BasicBlock E t (P.write "br ")).1).write "(")
    simp only [Bool.not_false, if_true, Bool.false_eq_true, if_false, write_OS]
    rw [g1]
    simp only [write_OS, writeID_OS, h1, h2, blockRef, String.append_assoc]

/-- C6 fails on the code: for the block-argument list `[1, 2]` and the
target block 100 of `sampleGraph`, `visitUncondBranchInst` writes
`br bb0(%1%2)`: the arguments follow one another with nothing between them,
where the claim has `br bb0(%1 %2)`. -/
theorem C6_branch_arguments_not_separated :
    (visitUncondBranchInst (Env.ofGraph sampleGraph 100) 100 [1, 2]
        (CFGPrinter.new "")).OS = "br bb0(%1%2)" ∧
    (visitUncondBranchInst (Env.ofGraph sampleGraph 100) 100 [1, 2]
        (CFGPrinter.new "")).OS ≠ "br bb0(%1 %2)" ∧
    (printInstruction (Env.ofGraph sampleGraph 100)
        ⟨202, InstKind.UncondBranchInst 100 [1, 2]⟩ (CFGPrinter.new "")).map CFGPrinter.OS =
      some "  %2 = br bb0(%1%2)\n" := by
  decide

/-- C7: the line `print(const Instruction *)` writes for a call is two
spaces, the call's identifier, ` = `, the body and a newline, where the body
is `Call(fn=<callee>)` for an empty argument list, and otherwise
`Call(fn=<callee>,args=(<a_1> <a_2> ... <a_m>))` with the argument
identifiers joined by single spaces; for one argument `,args=(<a_1>)`.
Here `nI` is the numbering the instruction cache reports once initialised. -/
theorem C7_call_body (E : Env) (a : Nat) (c : CFGValue) (P : CFGPrinter) (nI : Nat → Nat)
    (hI : nI = (initInsts E a P.InstructionToIDMap).numOf) :
    (printInstruction E ⟨a, InstKind.CallInst c []⟩ P).map CFGPrinter.OS =
        some (P.OS ++ ("  " ++ valueRef nI (CFGValue.Instruction a) ++ " = " ++
          ("Call(fn=" ++ valueRef nI c ++ ")") ++ "\n")) ∧
      (∀ (x : CFGValue) (rest : List CFGValue),
        (printInstruction E ⟨a, InstKind.CallInst c (x :: rest)⟩ P).map CFGPrinter.OS =
          some (P.OS ++ ("  " ++ valueRef nI (CFGValue.Instruction a) ++ " = " ++
            ("Call(fn=" ++ valueRef nI c ++ ",args=(" ++
              " ".intercalate ((x :: rest).map (valueRef nI)) ++ "))") ++ "\n"))) ∧
      (∀ x : CFGValue,
        (printInstruction E ⟨a, InstKind.CallInst c [x]⟩ P).map CFGPrinter.OS =
          some (P.OS ++ ("  " ++ valueRef nI (CFGValue.Instruction a) ++ " = " ++
            ("Call(fn=" ++ valueRef nI c ++ ",args=(" ++ valueRef nI x ++ "))") ++ "\n"))) := by
  have hline : ∀ args : List CFGValue,
      (printInstruction E ⟨a, InstKind.CallInst c args⟩ P).map CFGPrinter.OS =
        some (P.OS ++ ("  " ++ valueRef nI (CFGValue.Instruction a) ++ " = " ++
          bodyText nI nI (InstKind.CallInst c args) ++ "\n")) := by
    intro args
    obtain ⟨h1, _, h3⟩ := afterLabel_spec E ⟨a, InstKind.CallInst c args⟩ P
    rw [← hI] at h1 h3
    obtain ⟨g1, _, _⟩ := visitCallInst_spec E nI c args _ h3
    rw [printInstruction_eq]
    simp only [visit, Option.map_some', write_OS, g1, h1, bodyText, String.append_assoc]
  have hc : ∀ s : String, ")" ++ (")" ++ s) = "))" ++ s := fun s => by
    rw [← String.append_assoc]; rfl
  refine ⟨?_, fun x rest => ?_, fun x => ?_⟩
  · rw [hline]
    simp only [bodyText, List.isEmpty_nil, if_true, String.append_assoc, String.empty_append]
  · rw [hline]
    simp only [bodyText, List.isEmpty_cons, Bool.false_eq_true, if_false,
      String.append_assoc, hc]
  · rw [hline]
    simp only [bodyText, List.isEmpty_cons, Bool.false_eq_true, if_false, List.map_cons,
      List.map_nil, String.intercalate, String.intercalate.go, String.append_assoc, hc]

/-- C7 at the call `%0 = Call(fn=%1,args=(%0 %4294967295))` of `sampleGraph`
and at the same call without arguments, on a fresh printer. -/
theorem C7_call_body_witness :
    (printInstruction (Env.ofGraph sampleGraph 100)
        ⟨200, InstKind.CallInst (CFGValue.Instruction 201) []⟩
        (CFGPrinter.new "")).map CFGPrinter.OS = some "  %0 = Call(fn=%1)\n" ∧
    (printInstruction (Env.ofGraph sampleGraph 100)
        ⟨200, InstKind.CallInst (CFGValue.Instruction 201)
          [CFGValue.Instruction 200, CFGValue.BasicBlockArg 5]⟩
        (CFGPrinter.new "")).map CFGPrinter.OS =
      some "  %0 = Call(fn=%1,args=(%0 %4294967295))\n" :=
  ⟨(C7_call_body (Env.ofGraph sampleGraph 100) 200 (CFGValue.Instruction 201)
      (CFGPrinter.new "") _ rfl).1.trans (by decide),
    ((C7_call_body (Env.ofGraph sampleGraph 100) 200 (CFGValue.Instruction 201)
      (CFGPrinter.new "") _ rfl).2.1 (CFGValue.Instruction 200)
        [CFGValue.BasicBlockArg 5]).trans (by decide)⟩

/-- C8: in `CFG::print` of a graph of two distinct blocks whose second block
holds an unconditional branch to the first with an empty block-argument
list, the line of that instruction is its identifier, ` = ` and exactly
`br bb0`, with no parenthesis; and in general the line written for an
unconditional branch with an empty block-argument list has as body `br `
followed by the identifier of the target block and nothing more. -/
theorem C8_branch_without_arguments (E : Env) (B0 B1 : BasicBlock) (a : Nat)
    (pre post : List Instruction) (OS : String)
    (hE : E.Owns ⟨[B0, B1]⟩) (hne : B0.addr ≠ B1.addr)
    (hins : B1.insts = pre ++ ⟨a, InstKind.UncondBranchInst B0.addr []⟩ :: post)
    (hk : NoAbort E (CFG.instructions ⟨[B0, B1]⟩)) :
    CFG.print E ⟨[B0, B1]⟩ OS =
        some (OS ++ (blockText (CFG.blockNumber ⟨[B0, B1]⟩) (CFG.valueNumber ⟨[B0, B1]⟩) B0 ++
          (blockRef (CFG.blockNumber ⟨[B0, B1]⟩) B1.addr ++ ":\t" ++ " ; Preds:" ++
            String.join (B1.Preds.map
              (fun p => " " ++ blockRef (CFG.blockNumber ⟨[B0, B1]⟩) p)) ++ "\n" ++
            String.join (pre.map
              (instText (CFG.blockNumber ⟨[B0, B1]⟩) (CFG.valueNumber ⟨[B0, B1]⟩))) ++
            ("  " ++ valueRef (CFG.valueNumber ⟨[B0, B1]⟩) (CFGValue.Instruction a) ++
              " = " ++ "br bb0" ++ "\n") ++
            String.join (post.map
              (instText (CFG.blockNumber ⟨[B0, B1]⟩) (CFG.valueNumber ⟨[B0, B1]⟩))) ++
            "\n"))) ∧
      (∀ (E1 : Env) (a1 t : Nat) (P : CFGPrinter),
        (printInstruction E1 ⟨a1, InstKind.UncondBranchInst t []⟩ P).map CFGPrinter.OS =
          some (P.OS ++ ("  " ++
            valueRef (initInsts E1 a1 P.InstructionToIDMap).numOf (CFGValue.Instruction a1) ++
            " = " ++ ("br " ++ blockRef (initBlocks E1 t P.BlocksToIDMap).numOf t) ++
            "\n"))) := by
  constructor
  · rw [CFG_print_spec E _ OS hE hk]
    have hb : CFG.blockNumber ⟨[B0, B1]⟩ B0.addr = 0 := by
      simp [CFG.blockNumber, numberBlocks, DenseMap.numOf, DenseMap.find_assign, hne]
    have hjoin : ∀ (f : Instruction → String) (l1 l2 : List Instruction) (x : Instruction),
        String.join ((l1 ++ x :: l2).map f) =
          String.join (l1.map f) ++ (f x ++ String.join (l2.map f)) := by
      intro f l1 l2 x
      induction l1 with
      | nil => simp [join_cons, join_nil]
      | cons y l1 ih =>
        simp only [List.cons_append, List.map_cons, join_cons, ih, String.append_assoc]
    have hbr : blockRef (CFG.blockNumber ⟨[B0, B1]⟩) B0.addr = "bb0" := by
      rw [blockRef_eq, hb]; decide
    have hc : ∀ s : String, "br " ++ ("bb0" ++ s) = "br bb0" ++ s := fun s => by
      rw [← String.append_assoc]; rfl
    congr 2
    simp only [List.map_cons, List.map_nil, join_cons, join_nil, String.append_empty]
    congr 1
    simp only [blockText, hins, hjoin, instText, bodyText, List.isEmpty_nil, if_true, hbr,
      String.append_assoc, String.append_empty, String.empty_append, hc]
  · intro E1 a1 t P
    obtain ⟨h1, h2, _⟩ := afterLabel_spec E1 ⟨a1, InstKind.UncondBranchInst t []⟩ P
    have g1 := visitUncondBranchInst_any E1 t []
      (afterLabel E1 ⟨a1, InstKind.UncondBranchInst t []⟩ P)
    rw [h2] at g1
    rw [printInstruction_eq]
    simp only [visit, Option.map_some', write_OS, g1, h1, List.isEmpty_nil, if_true,
      String.append_assoc, String.append_empty]

/-- C8 on `loopGraph`: the whole text, with the line `  %1 = br bb0`. -/
theorem C8_branch_without_arguments_witness :
    (Env.ofGraph loopGraph 100).Owns loopGraph ∧
    (100 : Nat) ≠ 101 ∧
    NoAbort (Env.ofGraph loopGraph 100) loopGraph.instructions ∧
    CFG.print (Env.ofGraph loopGraph 100) loopGraph "" =
      some "bb0:\t ; Preds:\n  %0 = Return\n\nbb1:\t ; Preds: bb0\n  %1 = br bb0\n\n" :=
  ⟨⟨fun _ _ => rfl, fun _ _ => rfl⟩, by decide, by unfold NoAbort; decide,
    (C8_branch_without_arguments (Env.ofGraph loopGraph 100)
      ⟨100, [], [⟨200, InstKind.ReturnInst none⟩]⟩
      ⟨101, [100], [⟨201, InstKind.UncondBranchInst 100 []⟩]⟩ 201 [] [] ""
      ⟨fun _ _ => rfl, fun _ _ => rfl⟩ (by decide) rfl
      (by unfold NoAbort; decide)).1.trans (by decide)⟩

/-- C9: the line `print(const Instruction *)` writes for a tuple has as body
`Tuple(`, the element identifiers joined by single commas, and `)`; for an
empty element list the body is exactly `Tuple()`. Here `nI` is the numbering
the instruction cache reports once initialised. -/
theorem C9_tuple_body (E : Env) (a : Nat) (P : CFGPrinter) (nI : Nat → Nat)
    (hI : nI = (initInsts E a P.InstructionToIDMap).numOf) :
    (∀ es : List CFGValue,
      (printInstruction E ⟨a, InstKind.TupleInst es⟩ P).map CFGPrinter.OS =
        some (P.OS ++ ("  " ++ valueRef nI (CFGValue.Instruction a) ++ " = " ++
          ("Tuple(" ++ ",".intercalate (es.map (valueRef nI)) ++ ")") ++ "\n"))) ∧
      (printInstruction E ⟨a, InstKind.TupleInst []⟩ P).map CFGPrinter.OS =
        some (P.OS ++ ("  " ++ valueRef nI (CFGValue.Instruction a) ++ " = " ++
          "Tuple()" ++ "\n")) := by
  have hline : ∀ es : List CFGValue,
      (printInstruction E ⟨a, InstKind.TupleInst es⟩ P).map CFGPrinter.OS =
        some (P.OS ++ ("  " ++ valueRef nI (CFGValue.Instruction a) ++ " = " ++
          ("Tuple(" ++ ",".intercalate (es.map (valueRef nI)) ++ ")") ++ "\n")) := by
    intro es
    obtain ⟨h1, _, h3⟩ := afterLabel_spec E ⟨a, InstKind.TupleInst es⟩ P
    rw [← hI] at h1 h3
    obtain ⟨g1, _, _⟩ := visitTupleInst_spec E nI es _ h3
    rw [printInstruction_eq]
    simp only [visit, Option.map_some', write_OS, g1, h1, String.append_assoc]
  refine ⟨hline, ?_⟩
  rw [hline]
  have hc : ∀ s : String, "Tuple(" ++ (")" ++ s) = "Tuple()" ++ s := fun s => by
    rw [← String.append_assoc]; rfl
  simp only [List.map_nil, String.intercalate, String.append_assoc, String.empty_append, hc]

/-- C9 at the tuple `%1 = Tuple(%1,%4)` of `sampleGraph` and at the empty
tuple, on a fresh printer. -/
theorem C9_tuple_body_witness :
    (printInstruction (Env.ofGraph sampleGraph 100)
        ⟨201, InstKind.TupleInst [CFGValue.Instruction 201, CFGValue.Instruction 204]⟩
        (CFGPrinter.new "")).map CFGPrinter.OS = some "  %1 = Tuple(%1,%4)\n" ∧
    (printInstruction (Env.ofGraph sampleGraph 100) ⟨201, InstKind.TupleInst []⟩
        (CFGPrinter.new "")).map CFGPrinter.OS = some "  %1 = Tuple()\n" :=
  ⟨((C9_tuple_body (Env.ofGraph sampleGraph 100) 201 (CFGPrinter.new "") _ rfl).1
      [CFGValue.Instruction 201, CFGValue.Instruction 204]).trans (by decide),
    (C9_tuple_body (Env.ofGraph sampleGraph 100) 201 (CFGPrinter.new "") _ rfl).2.trans
      (by decide)⟩

/-- C10: `getID` of a block argument always returns, with the value
identifier numbered `2 ^ 32 - 1 = 4294967295`, and leaves the printer,
hence both caches, as it was; so does the lookup of a value reference that
holds a block argument, and writing that identifier appends `%4294967295`,
as in the operand of a load. -/
theorem C10_block_argument_identifier (E : Env) (p : Nat) (P : CFGPrinter) :
    getID_BasicBlockArg p P = (⟨IDKind.SSAValue, 4294967295⟩, P) ∧
      getID_CFGValue E (CFGValue.BasicBlockArg p) P = (⟨IDKind.SSAValue, 4294967295⟩, P) ∧
      (4294967295 : Nat) = 2 ^ 32 - 1 ∧
      (∀ OS : String, writeID OS (getID_CFGValue E (CFGValue.BasicBlockArg p) P).1 =
        OS ++ "%4294967295") ∧
      (visitLoadInst E (CFGValue.BasicBlockArg p) P).OS =
        P.OS ++ "Load(lvalue=%4294967295)" ∧
      (visitLoadInst E (CFGValue.BasicBlockArg p) P).BlocksToIDMap = P.BlocksToIDMap ∧
      (visitLoadInst E (CFGValue.BasicBlockArg p) P).InstructionToIDMap =
        P.InstructionToIDMap := by
  have hid : (⟨IDKind.SSAValue, ALL_ONES⟩ : ID) = ⟨IDKind.SSAValue, 4294967295⟩ := by decide
  have htext : (⟨IDKind.SSAValue, 4294967295⟩ : ID).text = "%4294967295" := by decide
  refine ⟨?_, ?_, by norm_num, fun OS => ?_, ?_, rfl, rfl⟩
  · simp only [getID_BasicBlockArg, hid]
  · simp only [getID_CFGValue, getID_BasicBlockArg, hid]
  · simp only [getID_CFGValue, getID_BasicBlockArg, hid, writeID_eq, htext]
  · have hc : "Load(lvalue=" ++ ("%4294967295" ++ ")") = "Load(lvalue=%4294967295)" := by
      decide
    simp only [visitLoadInst, getID_CFGValue, getID_BasicBlockArg, hid, write_OS, writeID_OS,
      htext, String.append_assoc, hc]

/-! ## Single instructions on any printer state -/

/-- What `visitCondBranchInst` writes on any printer state: the first arm
is looked up first, which initialises the block cache if need be. -/
theorem visitCondBranchInst_any (E : Env) (b0 b1 : Nat) (P : CFGPrinter) :
    (visitCondBranchInst E b0 b1 P).OS =
      P.OS ++ ("cond_br(cond=?,branches=(" ++
        blockRef (initBlocks E b0 P.BlocksToIDMap).numOf b0 ++ "," ++
        blockRef (initBlocks E b0 P.BlocksToIDMap).numOf b1 ++ "))") := by
  obtain ⟨h1, h2, _, h4⟩ := getID_BasicBlock_spec E b0
    (((P.write "cond_br(cond=").write "?").write ",branches=(")
  have hM : (((P.write "cond_br(cond=").write "?").write ",branches=(").BlocksToIDMap =
      P.BlocksToIDMap := rfl
  rw [hM] at h1 h4
  have hw2 := BlocksSettled_congr (write_Blocks
    ((getID_BasicBlock E b0 (((P.write "cond_br(cond=").write "?").write
      ",branches=(")).2.writeID
      (getID_BasicBlock E b0 (((P.write "cond_br(cond=").write "?").write
        ",branches=(")).1) ",")
    (BlocksSettled_congr (writeID_Blocks _ _) h4)
  obtain ⟨g1, _, _⟩ := write_block_settled E _ b1 _ hw2
  have hc : ∀ s : String,
      "cond_br(cond=" ++ ("?" ++ (",branches=(" ++ s)) = "cond_br(cond=?,branches=(" ++ s :=
    fun s => by rw [← String.append_assoc, ← String.append_assoc]; rfl
  unfold visitCondBranchInst
  simp only [write_OS, g1]
  simp only [write_OS, writeID_OS, h1, h2, blockRef, String.append_assoc, hc]

/-- What `visit` writes on an initialised instruction cache and any block
cache. -/
theorem visit_any (E : Env) (nI : Nat → Nat) (k : InstKind) (P : CFGPrinter)
    (hI : InstsSettled nI P) (hk : k = InstKind.Unhandled → E.NDEBUG = true) :
    ∃ P', visit E k P = some P' ∧
      P'.OS = P.OS ++ bodyText (blocksAtVisit E k P.BlocksToIDMap).numOf nI k := by
  cases k with
  | CallInst f args => exact ⟨_, rfl, (visitCallInst_spec E nI f args P hI).1⟩
  | DeclRefInst n =>
    exact ⟨_, rfl, by simp [visitDeclRefInst, bodyText, String.append_assoc]⟩
  | IntegerLiteralInst lit =>
    exact ⟨_, rfl, by simp [visitIntegerLiteralInst, bodyText, String.append_assoc]⟩
  | LoadInst lv => exact ⟨_, rfl, (visitLoadInst_spec E nI lv P hI).1⟩
  | ThisApplyInst f a => exact ⟨_, rfl, (visitThisApplyInst_spec E nI f a P hI).1⟩
  | TupleInst es => exact ⟨_, rfl, (visitTupleInst_spec E nI es P hI).1⟩
  | TypeOfInst t =>
    exact ⟨_, rfl, by simp [visitTypeOfInst, bodyText, String.append_assoc]⟩
  | ReturnInst rv => exact ⟨_, rfl, (visitReturnInst_spec E nI rv P hI).1⟩
  | UncondBranchInst t args => exact ⟨_, rfl, visitUncondBranchInst_any E t args P⟩
  | CondBranchInst c b0 b1 => exact ⟨_, rfl, visitCondBranchInst_any E b0 b1 P⟩
  | Unhandled =>
    refine ⟨P, ?_, by simp [bodyText]⟩
    simp [visit, visitInstruction, hk rfl]

/-- The line `print(const Instruction *)` writes, on any printer state. -/
theorem printInstruction_any (E : Env) (I : Instruction) (P : CFGPrinter)
    (hk : I.kind = InstKind.Unhandled → E.NDEBUG = true) :
    (printInstruction E I P).map CFGPrinter.OS =
      some (P.OS ++ instText (blocksAtVisit E I.kind P.BlocksToIDMap).numOf
        (initInsts E I.addr P.InstructionToIDMap).numOf I) := by
  obtain ⟨h1, h2, h3⟩ := afterLabel_spec E I P
  obtain ⟨P2, g1, g2⟩ := visit_any E _ I.kind _ h3 hk
  rw [h2] at g2
  rw [printInstruction_eq, g1]
  simp only [Option.map_some', write_OS, g2, h1, instText, String.append_assoc]

/-- A print of an instruction class without a `visit` method aborts when
assertions are compiled in. -/
theorem printInstruction_abort (E : Env) (I : Instruction) (P : CFGPrinter)
    (hE : E.NDEBUG = false) (hk : I.kind = InstKind.Unhandled) :
    printInstruction E I P = none := by
  rw [printInstruction_eq, hk]
  simp [visit, visitInstruction, hE]

theorem printInstructions_abort (E : Env) (is : List Instruction) (P : CFGPrinter)
    (hE : E.NDEBUG = false) (hk : ∃ I ∈ is, I.kind = InstKind.Unhandled) :
    printInstructions E is P = none := by
  induction is generalizing P with
  | nil => obtain ⟨I, hI, _⟩ := hk; cases hI
  | cons J rest ih =>
    simp only [printInstructions]
    cases hJ : printInstruction E J P with
    | none => rfl
    | some P1 =>
      simp only []
      apply ih
      obtain ⟨I, hI, hIk⟩ := hk
      rcases List.mem_cons.1 hI with h | h
      · subst h
        rw [printInstruction_abort E I P hE hIk] at hJ
        cases hJ
      · exact ⟨I, h, hIk⟩

theorem printBasicBlock_abort (E : Env) (BB : BasicBlock) (P : CFGPrinter)
    (hE : E.NDEBUG = false) (hk : ∃ I ∈ BB.insts, I.kind = InstKind.Unhandled) :
    printBasicBlock E BB P = none := by
  simp only [printBasicBlock, printInstructions_abort E BB.insts _ hE hk]

theorem printBlocks_abort (E : Env) (bs : List BasicBlock) (P : CFGPrinter)
    (hE : E.NDEBUG = false)
    (hk : ∃ B ∈ bs, ∃ I ∈ B.insts, I.kind = InstKind.Unhandled) :
    printBlocks E bs P = none := by
  induction bs generalizing P with
  | nil => obtain ⟨B, hB, _⟩ := hk; cases hB
  | cons C rest ih =>
    simp only [printBlocks]
    cases hC : printBasicBlock E C P with
    | none => rfl
    | some P1 =>
      simp only []
      apply ih
      obtain ⟨B, hB, hBk⟩ := hk
      rcases List.mem_cons.1 hB with h | h
      · subst h
        rw [printBasicBlock_abort E B P hE hBk] at hC
        cases hC
      · exact ⟨B, h, hBk⟩

theorem mem_instructions_iff (G : CFG) (I : Instruction) :
    I ∈ G.instructions ↔ ∃ B ∈ G.blocks, I ∈ B.insts := by
  unfold CFG.instructions
  simp only [List.mem_flatten, List.mem_map]
  constructor
  · rintro ⟨l, ⟨B, hB, rfl⟩, hI⟩
    exact ⟨B, hB, hI⟩
  · rintro ⟨B, hB, hI⟩
    exact ⟨B.insts, ⟨B, hB, rfl⟩, hI⟩

theorem CFG_print_abort (E : Env) (G : CFG) (OS : String) (hE : E.NDEBUG = false)
    (hk : ∃ I ∈ G.instructions, I.kind = InstKind.Unhandled) :
    CFG.print E G OS = none := by
  obtain ⟨I, hI, hIk⟩ := hk
  obtain ⟨B, hB, hIB⟩ := (mem_instructions_iff G I).1 hI
  simp only [CFG.print, printBlocks_abort E G.blocks _ hE ⟨B, hB, I, hIB, hIk⟩,
    Option.map_none']

/-- C11 fails on the code: with assertions compiled in, printing the call
of `sampleGraph`, whose second argument is a block argument, completes and
writes that operand as `%4294967295`; so does the whole graph. -/
theorem C11_counterexample :
    (Env.ofGraph sampleGraph 100).NDEBUG = false ∧
    Instruction.print (Env.ofGraph sampleGraph 100)
        ⟨200, InstKind.CallInst (CFGValue.Instruction 201)
          [CFGValue.Instruction 200, CFGValue.BasicBlockArg 5]⟩ "" =
      some "  %0 = Call(fn=%1,args=(%0 %4294967295))\n" ∧
    Instruction.print (Env.ofGraph sampleGraph 100)
        ⟨200, InstKind.CallInst (CFGValue.Instruction 201)
          [CFGValue.Instruction 200, CFGValue.BasicBlockArg 5]⟩ "" ≠ none ∧
    CFG.print (Env.ofGraph sampleGraph 100) sampleGraph "" ≠ none := by
  decide

/-- C11, as the code has it: the lookup of a block argument is not fatal.
Printing any instruction that has a `visit` method completes, whatever its
operands refer to, and writes the line made of its identifier and its body.
In that body every operand that `visit` writes (the callee and the
arguments of a call, the source of a load, the callee and the argument of a
this-apply, the elements of a tuple, the value of a return) is the text of
its value reference, and the text of a block argument is `%4294967295`;
the condition of a conditional branch is not written at all, so for it no
such text appears. The lines of a load, a return, a tuple, a this-apply and
a call whose operands are block arguments are given in full. -/
theorem C11_block_argument_lookup_returns (E : Env) (I : Instruction) (P : CFGPrinter)
    (hk : I.kind ≠ InstKind.Unhandled) :
    (printInstruction E I P).map CFGPrinter.OS =
        some (P.OS ++ ("  " ++
          valueRef (initInsts E I.addr P.InstructionToIDMap).numOf
            (CFGValue.Instruction I.addr) ++ " = " ++
          bodyText (blocksAtVisit E I.kind P.BlocksToIDMap).numOf
            (initInsts E I.addr P.InstructionToIDMap).numOf I.kind ++ "\n")) ∧
      (∀ (nI : Nat → Nat) (p : Nat),
        valueRef nI (CFGValue.BasicBlockArg p) = "%4294967295") ∧
      (∀ (nB nI : Nat → Nat),
        (∀ (f : CFGValue) (args : List CFGValue),
          bodyText nB nI (InstKind.CallInst f args) =
            "Call(fn=" ++ valueRef nI f ++
              (if args.isEmpty then "" else
                ",args=(" ++ " ".intercalate (args.map (valueRef nI)) ++ ")") ++ ")") ∧
        (∀ lv : CFGValue,
          bodyText nB nI (InstKind.LoadInst lv) = "Load(lvalue=" ++ valueRef nI lv ++ ")") ∧
        (∀ f x : CFGValue,
          bodyText nB nI (InstKind.ThisApplyInst f x) =
            "ThisApply(fn=" ++ valueRef nI f ++ ",arg=" ++ valueRef nI x ++ ")") ∧
        (∀ es : List CFGValue,
          bodyText nB nI (InstKind.TupleInst es) =
            "Tuple(" ++ ",".intercalate (es.map (valueRef nI)) ++ ")") ∧
        (∀ v : CFGValue,
          bodyText nB nI (InstKind.ReturnInst (some v)) =
            "Return" ++ ("(" ++ valueRef nI v ++ ")")) ∧
        (∀ (c : CFGValue) (b0 b1 : Nat),
          bodyText nB nI (InstKind.CondBranchInst c b0 b1) =
            "cond_br(cond=?,branches=(" ++ blockRef nB b0 ++ "," ++ blockRef nB b1 ++ "))")) ∧
      (∀ (a p q : Nat) (nI : Nat → Nat),
        nI = (initInsts E a P.InstructionToIDMap).numOf →
        (printInstruction E ⟨a, InstKind.LoadInst (CFGValue.BasicBlockArg p)⟩ P).map
            CFGPrinter.OS =
          some (P.OS ++ ("  " ++ valueRef nI (CFGValue.Instruction a) ++ " = " ++
            "Load(lvalue=%4294967295)" ++ "\n")) ∧
        (printInstruction E ⟨a, InstKind.ReturnInst (some (CFGValue.BasicBlockArg p))⟩ P).map
            CFGPrinter.OS =
          some (P.OS ++ ("  " ++ valueRef nI (CFGValue.Instruction a) ++ " = " ++
            "Return(%4294967295)" ++ "\n")) ∧
        (printInstruction E
            ⟨a, InstKind.TupleInst [CFGValue.BasicBlockArg p, CFGValue.BasicBlockArg q]⟩ P).map
            CFGPrinter.OS =
          some (P.OS ++ ("  " ++ valueRef nI (CFGValue.Instruction a) ++ " = " ++
            "Tuple(%4294967295,%4294967295)" ++ "\n")) ∧
        (printInstruction E
            ⟨a, InstKind.ThisApplyInst (CFGValue.BasicBlockArg p) (CFGValue.BasicBlockArg q)⟩
            P).map CFGPrinter.OS =
          some (P.OS ++ ("  " ++ valueRef nI (CFGValue.Instruction a) ++ " = " ++
            "ThisApply(fn=%4294967295,arg=%4294967295)" ++ "\n")) ∧
        (printInstruction E
            ⟨a, InstKind.CallInst (CFGValue.BasicBlockArg p)
              [CFGValue.BasicBlockArg q, CFGValue.BasicBlockArg p]⟩ P).map CFGPrinter.OS =
          some (P.OS ++ ("  " ++ valueRef nI (CFGValue.Instruction a) ++ " = " ++
            "Call(fn=%4294967295,args=(%4294967295 %4294967295))" ++ "\n"))) := by
  refine ⟨?_, valueRef_arg_eq, fun nB nI => ⟨fun _ _ => rfl, fun _ => rfl, fun _ _ => rfl,
    fun _ => rfl, fun _ => rfl, fun _ _ _ => rfl⟩, fun a p q nI hI => ?_⟩
  · rw [printInstruction_any E I P (fun h => absurd h hk)]
    simp only [instText, String.append_assoc]
  · have hload : "Load(lvalue=" ++ ("%4294967295" ++ ")") = "Load(lvalue=%4294967295)" := by
      decide
    have hret : "Return" ++ ("(" ++ ("%4294967295" ++ ")")) = "Return(%4294967295)" := by
      decide
    have htup : "Tuple(" ++ (",".intercalate ["%4294967295", "%4294967295"] ++ ")") =
        "Tuple(%4294967295,%4294967295)" := by decide
    have hthis : "ThisApply(fn=" ++ ("%4294967295" ++ (",arg=" ++ ("%4294967295" ++ ")"))) =
        "ThisApply(fn=%4294967295,arg=%4294967295)" := by decide
    have hcall : "Call(fn=" ++ ("%4294967295" ++ (",args=(" ++
        (" ".intercalate ["%4294967295", "%4294967295"] ++ (")" ++ ")")))) =
        "Call(fn=%4294967295,args=(%4294967295 %4294967295))" := by decide
    have hline : ∀ (k : InstKind) (body : String), k ≠ InstKind.Unhandled →
        (∀ nB : Nat → Nat, bodyText nB nI k = body) →
        (printInstruction E ⟨a, k⟩ P).map CFGPrinter.OS =
          some (P.OS ++ ("  " ++ valueRef nI (CFGValue.Instruction a) ++ " = " ++
            body ++ "\n")) := by
      intro k body hk1 hbody
      rw [printInstruction_any E ⟨a, k⟩ P (fun h => absurd h hk1), ← hI]
      simp only [instText, hbody, String.append_assoc]
    refine ⟨hline _ _ (by simp) (fun nB => ?_), hline _ _ (by simp) (fun nB => ?_),
      hline _ _ (by simp) (fun nB => ?_), hline _ _ (by simp) (fun nB => ?_),
      hline _ _ (by simp) (fun nB => ?_)⟩
    · simp only [bodyText, valueRef_arg_eq, String.append_assoc, hload]
    · simp only [bodyText, valueRef_arg_eq, String.append_assoc, hret]
    · simp only [bodyText, valueRef_arg_eq, List.map_cons, List.map_nil,
        String.append_assoc, htup]
    · simp only [bodyText, valueRef_arg_eq, String.append_assoc, hthis]
    · simp only [bodyText, valueRef_arg_eq, List.map_cons, List.map_nil, List.isEmpty_cons,
        Bool.false_eq_true, if_false, String.append_assoc, hcall]

/-- C11 on a fresh printer: a load from the block argument 5 as first
instruction of `sampleGraph`, and a call whose callee and arguments are all
block arguments. -/
theorem C11_block_argument_lookup_returns_witness :
    InstKind.LoadInst (CFGValue.BasicBlockArg 5) ≠ InstKind.Unhandled ∧
    (printInstruction (Env.ofGraph sampleGraph 100)
        ⟨200, InstKind.LoadInst (CFGValue.BasicBlockArg 5)⟩
        (CFGPrinter.new "")).map CFGPrinter.OS =
      some "  %0 = Load(lvalue=%4294967295)\n" ∧
    (printInstruction (Env.ofGraph sampleGraph 100)
        ⟨200, InstKind.CallInst (CFGValue.BasicBlockArg 5)
          [CFGValue.BasicBlockArg 6, CFGValue.BasicBlockArg 5]⟩
        (CFGPrinter.new "")).map CFGPrinter.OS =
      some "  %0 = Call(fn=%4294967295,args=(%4294967295 %4294967295))\n" :=
  ⟨by decide,
    (C11_block_argument_lookup_returns (Env.ofGraph sampleGraph 100)
      ⟨200, InstKind.LoadInst (CFGValue.BasicBlockArg 5)⟩ (CFGPrinter.new "")
      (by decide)).1.trans (by decide),
    ((C11_block_argument_lookup_returns (Env.ofGraph sampleGraph 100)
      ⟨200, InstKind.LoadInst (CFGValue.BasicBlockArg 5)⟩ (CFGPrinter.new "")
      (by decide)).2.2.2 200 5 6 _ rfl).2.2.2.2.trans (by decide)⟩

/-- C12 fails on the code in a build with `NDEBUG`: there the `assert` of
`visitInstruction` is compiled out, and printing `unhandledGraph`, whose
only instruction has no `visit` method, completes with an empty body. -/
theorem C12_counterexample :
    (Env.ofGraphRelease unhandledGraph 100).NDEBUG = true ∧
    CFG.print (Env.ofGraphRelease unhandledGraph 100) unhandledGraph "" =
      some "bb0:\t ; Preds:\n  %0 = \n\n" ∧
    CFG.print (Env.ofGraphRelease unhandledGraph 100) unhandledGraph "" ≠ none := by
  decide

/-- C12, as the code has it: in a build with assertions compiled in,
printing an instruction of a class without a `visit` method aborts, as does
`Instruction::print` on it and `CFG::print` on every graph that holds such
an instruction: no completed output. For each of the ten classes that have
a `visit` method, `visit` returns, in every build. -/
theorem C12_unhandled_variant_aborts (E : Env) (hE : E.NDEBUG = false) :
    (∀ (a : Nat) (P : CFGPrinter), printInstruction E ⟨a, InstKind.Unhandled⟩ P = none) ∧
      (∀ (I : Instruction) (OS : String), I.kind = InstKind.Unhandled →
        Instruction.print E I OS = none) ∧
      (∀ (G : CFG) (OS : String), (∃ I ∈ G.instructions, I.kind = InstKind.Unhandled) →
        CFG.print E G OS = none) ∧
      (∀ (E1 : Env) (k : InstKind) (P : CFGPrinter), k ≠ InstKind.Unhandled →
        (visit E1 k P).isSome = true) ∧
      (∀ (E1 : Env) (I : Instruction) (P : CFGPrinter), I.kind ≠ InstKind.Unhandled →
        (printInstruction E1 I P).isSome = true) := by
  refine ⟨fun a P => printInstruction_abort E _ P hE rfl, fun I OS hI => ?_,
    fun G OS hG => CFG_print_abort E G OS hE hG, fun E1 k P hk => ?_, fun E1 I P hk => ?_⟩
  · simp only [Instruction.print, printInstruction_abort E I _ hE hI, Option.map_none']
  · cases k <;> first | rfl | exact absurd rfl hk
  · have h := printInstruction_any E1 I P (fun h => absurd h hk)
    cases hp : printInstruction E1 I P with
    | none => rw [hp] at h; cases h
    | some Q => rfl

/-- C12 on `unhandledGraph` with assertions compiled in: the print of the
graph aborts. -/
theorem C12_unhandled_variant_aborts_witness :
    (Env.ofGraph unhandledGraph 100).NDEBUG = false ∧
    CFG.print (Env.ofGraph unhandledGraph 100) unhandledGraph "" = none :=
  ⟨rfl, (C12_unhandled_variant_aborts (Env.ofGraph unhandledGraph 100) rfl).2.2.1
    unhandledGraph "" ⟨⟨200, InstKind.Unhandled⟩, by decide, rfl⟩⟩

/-- C13: the line `print(const Instruction *)` writes for a conditional
branch has as body `cond_br(cond=?,branches=(`, the identifier of the first
arm, `,`, the identifier of the second arm, `))`, whatever the condition
is; two conditional branches that differ only in their condition are
printed alike. Here `nB` and `nI` are the numberings the caches report once
initialised. -/
theorem C13_cond_branch_body (E : Env) (a : Nat) (c : CFGValue) (b0 b1 : Nat)
    (P : CFGPrinter) (nB nI : Nat → Nat)
    (hB : nB = (initBlocks E b0 P.BlocksToIDMap).numOf)
    (hI : nI = (initInsts E a P.InstructionToIDMap).numOf) :
    (printInstruction E ⟨a, InstKind.CondBranchInst c b0 b1⟩ P).map CFGPrinter.OS =
        some (P.OS ++ ("  " ++ valueRef nI (CFGValue.Instruction a) ++ " = " ++
          ("cond_br(cond=?,branches=(" ++ blockRef nB b0 ++ "," ++ blockRef nB b1 ++ "))") ++
          "\n")) ∧
      (∀ c1 : CFGValue,
        printInstruction E ⟨a, InstKind.CondBranchInst c1 b0 b1⟩ P =
          printInstruction E ⟨a, InstKind.CondBranchInst c b0 b1⟩ P) := by
  refine ⟨?_, fun c1 => rfl⟩
  rw [printInstruction_any E _ P (fun h => by cases h), hB, hI]
  simp only [instText, bodyText, blocksAtVisit, String.append_assoc]

/-- C13 at the conditional branch of `sampleGraph`, on a fresh printer, and
at the same branch on another condition. -/
theorem C13_cond_branch_body_witness :
    (printInstruction (Env.ofGraph sampleGraph 100)
        ⟨203, InstKind.CondBranchInst (CFGValue.Instruction 200) 101 100⟩
        (CFGPrinter.new "")).map CFGPrinter.OS =
      some "  %3 = cond_br(cond=?,branches=(bb1,bb0))\n" ∧
    printInstruction (Env.ofGraph sampleGraph 100)
        ⟨203, InstKind.CondBranchInst (CFGValue.BasicBlockArg 7) 101 100⟩
        (CFGPrinter.new "") =
      printInstruction (Env.ofGraph sampleGraph 100)
        ⟨203, InstKind.CondBranchInst (CFGValue.Instruction 200) 101 100⟩
        (CFGPrinter.new "") :=
  ⟨(C13_cond_branch_body (Env.ofGraph sampleGraph 100) 203 (CFGValue.Instruction 200)
      101 100 (CFGPrinter.new "") _ _ rfl rfl).1.trans (by decide),
    (C13_cond_branch_body (Env.ofGraph sampleGraph 100) 203 (CFGValue.Instruction 200)
      101 100 (CFGPrinter.new "") _ _ rfl rfl).2 (CFGValue.BasicBlockArg 7)⟩

/-- C14: the line `print(const Instruction *)` writes for a return has as
body exactly `Return` when there is no return value, and `Return(`, the
identifier of the value, `)` when there is one. Here `nI` is the numbering
the instruction cache reports once initialised. -/
theorem C14_return_body (E : Env) (a : Nat) (P : CFGPrinter) (nI : Nat → Nat)
    (hI : nI = (initInsts E a P.InstructionToIDMap).numOf) :
    (printInstruction E ⟨a, InstKind.ReturnInst none⟩ P).map CFGPrinter.OS =
        some (P.OS ++ ("  " ++ valueRef nI (CFGValue.Instruction a) ++ " = " ++
          "Return" ++ "\n")) ∧
      (∀ v : CFGValue,
        (printInstruction E ⟨a, InstKind.ReturnInst (some v)⟩ P).map CFGPrinter.OS =
          some (P.OS ++ ("  " ++ valueRef nI (CFGValue.Instruction a) ++ " = " ++
            ("Return(" ++ valueRef nI v ++ ")") ++ "\n"))) := by
  have hc : ∀ s : String, "Return" ++ ("(" ++ s) = "Return(" ++ s := fun s => by
    rw [← String.append_assoc]; rfl
  refine ⟨?_, fun v => ?_⟩
  · rw [printInstruction_any E _ P (fun h => by cases h), hI]
    simp only [instText, bodyText, String.append_assoc, String.empty_append]
  · rw [printInstruction_any E _ P (fun h => by cases h), hI]
    simp only [instText, bodyText, String.append_assoc, hc]

/-- C14 at returns placed at address 201 of `sampleGraph`: without a value,
and with the value of instruction 200. -/
theorem C14_return_body_witness :
    (printInstruction (Env.ofGraph sampleGraph 100) ⟨201, InstKind.ReturnInst none⟩
        (CFGPrinter.new "")).map CFGPrinter.OS = some "  %1 = Return\n" ∧
    (printInstruction (Env.ofGraph sampleGraph 100)
        ⟨201, InstKind.ReturnInst (some (CFGValue.Instruction 200))⟩
        (CFGPrinter.new "")).map CFGPrinter.OS = some "  %1 = Return(%0)\n" :=
  ⟨(C14_return_body (Env.ofGraph sampleGraph 100) 201 (CFGPrinter.new "") _ rfl).1.trans
      (by decide),
    ((C14_return_body (Env.ofGraph sampleGraph 100) 201 (CFGPrinter.new "") _ rfl).2
      (CFGValue.Instruction 200)).trans (by decide)⟩

/-! ## Whole graphs, block by block -/

theorem not_NoAbort (E : Env) (is : List Instruction) (h : ¬ NoAbort E is) :
    E.NDEBUG = false ∧ ∃ I ∈ is, I.kind = InstKind.Unhandled := by
  unfold NoAbort at h
  push_neg at h
  obtain ⟨I, hI, hk, hN⟩ := h
  exact ⟨by simpa using hN, I, hI, hk⟩

theorem join_map_append_cons {α : Type} (f : α → String) (l1 l2 : List α) (x : α) :
    String.join ((l1 ++ x :: l2).map f) =
      String.join (l1.map f) ++ (f x ++ String.join (l2.map f)) := by
  induction l1 with
  | nil => simp [join_cons, join_nil]
  | cons y l1 ih =>
    simp only [List.cons_append, List.map_cons, join_cons, ih, String.append_assoc]

/-- `BasicBlock::print` on a block of `G`, with its fresh printer. -/
theorem BasicBlock_print_spec (E : Env) (G : CFG) (BB : BasicBlock) (OS : String)
    (hE : E.Owns G) (hmem : BB ∈ G.blocks) (hk : NoAbort E BB.insts) :
    BasicBlock.print E BB OS = some (OS ++ blockText G.blockNumber G.valueNumber BB) := by
  obtain ⟨P1, h1, h2, _, _⟩ :=
    printBasicBlock_lazy E G G.blockNumber G.valueNumber BB (CFGPrinter.new OS) hE hmem hk
      (Or.inr ⟨rfl, rfl⟩) (Or.inr ⟨rfl, rfl⟩)
  simp only [BasicBlock.print, h1, Option.map_some', h2]
  rfl

theorem printBlocks_eq_alone (E : Env) (G : CFG) (bs : List BasicBlock) (P : CFGPrinter)
    (hE : E.Owns G) (hsub : ∀ B ∈ bs, B ∈ G.blocks)
    (hB : BlocksLazy G G.blockNumber P) (hI : InstsLazy G G.valueNumber P) :
    (printBlocks E bs P).map CFGPrinter.OS = printBlocksAlone E bs P.OS := by
  induction bs generalizing P with
  | nil => rfl
  | cons B rest ih =>
    have hmem := hsub B (List.mem_cons_self _ _)
    by_cases hk : NoAbort E B.insts
    · obtain ⟨P1, h1, h2, h3, h4⟩ :=
        printBasicBlock_lazy E G G.blockNumber G.valueNumber B P hE hmem hk hB hI
      have hfresh := BasicBlock_print_spec E G B P.OS hE hmem hk
      simp only [printBlocks, h1, printBlocksAlone, hfresh]
      rw [← h2]
      exact ih P1 (fun C hC => hsub C (List.mem_cons_of_mem _ hC)) (Or.inl h3) h4
    · obtain ⟨hN, hex⟩ := not_NoAbort E B.insts hk
      simp only [printBlocks, printBasicBlock_abort E B P hN hex, printBlocksAlone,
        BasicBlock.print, printBasicBlock_abort E B (CFGPrinter.new P.OS) hN hex,
        Option.map_none']

theorem CFG_print_text (E : Env) (G : CFG) (OS : String) (hE : E.Owns G) :
    CFG.print E G OS = (CFG.text E.NDEBUG G).map (fun t => OS ++ t) := by
  by_cases hk : NoAbort E G.instructions
  · rw [CFG_print_spec E G OS hE hk]
    have hc : (!E.NDEBUG &&
        G.instructions.any (fun I => decide (I.kind = InstKind.Unhandled))) = false := by
      cases hN : E.NDEBUG with
      | true => rfl
      | false =>
        simp only [Bool.not_false, Bool.true_and, List.any_eq_false, decide_eq_true_eq]
        intro I hI hkind
        have := hk I hI hkind
        rw [hN] at this
        cases this
    simp only [CFG.text, hc, Bool.false_eq_true, if_false, Option.map_some']
  · obtain ⟨hN, hex⟩ := not_NoAbort E G.instructions hk
    rw [CFG_print_abort E G OS hN hex]
    have hc : (!E.NDEBUG &&
        G.instructions.any (fun I => decide (I.kind = InstKind.Unhandled))) = true := by
      rw [hN]
      simp only [Bool.not_false, Bool.true_and, List.any_eq_true, decide_eq_true_eq]
      exact hex
    simp only [CFG.text, hc, if_true, Option.map_none']

theorem instText_of_no_blockRefs (nB nB1 nI : Nat → Nat) (I : Instruction)
    (h : I.kind.blockRefs = []) : instText nB nI I = instText nB1 nI I := by
  obtain ⟨a, k⟩ := I
  cases k <;> first | rfl | (simp [InstKind.blockRefs] at h)

theorem numOf_blocksAtVisit_fresh (E : Env) (G : CFG) (I : Instruction)
    (hE : E.Owns G) (hrefs : ∀ t ∈ I.kind.blockRefs, ∃ B ∈ G.blocks, B.addr = t) (nI : Nat → Nat) :
    instText (blocksAtVisit E I.kind ⟨[]⟩).numOf nI I = instText G.blockNumber nI I := by
  have hparent : ∀ t ∈ I.kind.blockRefs, E.blockParent t = G := by
    intro t ht
    obtain ⟨B, hB, rfl⟩ := hrefs t ht
    exact hE.1 B hB
  obtain ⟨a, k⟩ := I
  cases k with
  | UncondBranchInst t args =>
    have := hparent t (by simp [InstKind.blockRefs])
    simp only [blocksAtVisit, initBlocks, DenseMap.empty, List.isEmpty_nil, if_true, this]
    rfl
  | CondBranchInst c b0 b1 =>
    have := hparent b0 (by simp [InstKind.blockRefs])
    simp only [blocksAtVisit, initBlocks, DenseMap.empty, List.isEmpty_nil, if_true, this]
    rfl
  | _ => exact instText_of_no_blockRefs _ _ _ _ rfl

/-- `Instruction::print` on an instruction of `G`, with its fresh printer. -/
theorem Instruction_print_spec (E : Env) (G : CFG) (I : Instruction) (OS : String)
    (hE : E.Owns G) (hmem : I ∈ G.instructions)
    (hrefs : ∀ t ∈ I.kind.blockRefs, ∃ B ∈ G.blocks, B.addr = t)
    (hk : I.kind = InstKind.Unhandled → E.NDEBUG = true) :
    Instruction.print E I OS = some (OS ++ instText G.blockNumber G.valueNumber I) := by
  have h := printInstruction_any E I (CFGPrinter.new OS) hk
  have hI : (initInsts E I.addr (CFGPrinter.new OS).InstructionToIDMap).numOf =
      G.valueNumber := by
    simp only [CFGPrinter.new, initInsts, DenseMap.empty, List.isEmpty_nil, if_true,
      hE.2 I hmem]
    rfl
  rw [hI] at h
  have hB := numOf_blocksAtVisit_fresh E G I hE hrefs G.valueNumber
  unfold Instruction.print
  rw [h]
  exact congrArg (fun s => some (OS ++ s)) hB

/-- C15: the result of `CFG::print` is the stream followed by a text that
depends on the graph alone (and on whether assertions are compiled in): on
any two streams, in any two environments in which the graph's blocks and
instructions record it as their owner, two prints of the graph, each with
its fresh printer, append the same text or both abort; in particular a
second print appends after the first what the first appended. -/
theorem C15_render_deterministic (E1 E2 : Env) (G : CFG) (OS1 OS2 : String)
    (h1 : E1.Owns G) (h2 : E2.Owns G) (hN : E1.NDEBUG = E2.NDEBUG) :
    CFG.print E1 G OS1 = (CFG.text E1.NDEBUG G).map (fun t => OS1 ++ t) ∧
      CFG.print E2 G OS2 = (CFG.text E1.NDEBUG G).map (fun t => OS2 ++ t) ∧
      CFG.print E1 G OS1 = CFG.print E2 G OS1 ∧
      (∀ t : String, CFG.print E1 G OS1 = some (OS1 ++ t) →
        CFG.print E2 G (OS1 ++ t) = some (OS1 ++ t ++ t)) := by
  have e1 := CFG_print_text E1 G OS1 h1
  have e2 := CFG_print_text E2 G OS2 h2
  have e3 := CFG_print_text E2 G OS1 h2
  rw [← hN] at e2 e3
  refine ⟨e1, e2, by rw [e1, e3], fun t ht => ?_⟩
  have e4 := CFG_print_text E2 G (OS1 ++ t) h2
  rw [← hN] at e4
  rw [e1] at ht
  cases htx : CFG.text E1.NDEBUG G with
  | none => rw [htx] at ht; cases ht
  | some u =>
    rw [htx] at ht e4
    simp only [Option.map_some', Option.some.injEq] at ht
    have hut : u = t := by
      have hd := congrArg String.data ht
      simp only [String.data_append] at hd
      exact String.ext (List.append_cancel_left hd)
    rw [e4, hut]
    rfl

/-- C15 on `sampleGraph`, in two environments and on two streams. -/
theorem C15_render_deterministic_witness :
    (Env.ofGraph sampleGraph 100).Owns sampleGraph ∧
    (Env.ofGraph sampleGraph 101).Owns sampleGraph ∧
    CFG.print (Env.ofGraph sampleGraph 100) sampleGraph "" =
      CFG.print (Env.ofGraph sampleGraph 101) sampleGraph "" :=
  ⟨⟨fun _ _ => rfl, fun _ _ => rfl⟩, ⟨fun _ _ => rfl, fun _ _ => rfl⟩,
    (C15_render_deterministic (Env.ofGraph sampleGraph 100) (Env.ofGraph sampleGraph 101)
      sampleGraph "" "x" ⟨fun _ _ => rfl, fun _ _ => rfl⟩ ⟨fun _ _ => rfl, fun _ _ => rfl⟩
      rfl).2.2.1⟩

/-- C17: for every graph whose blocks and instructions record it as their
owner, `CFG::print`, with its one printer for all blocks, leaves on the
stream what printing the blocks in order leaves, each by `BasicBlock::print`
with a fresh printer of its own; and each such print of a block appends the
block's text under the numberings of the whole graph. -/
theorem C17_shared_registry_equals_per_block (E : Env) (G : CFG) (OS : String)
    (hE : E.Owns G) :
    CFG.print E G OS = printBlocksAlone E G.blocks OS ∧
      (∀ (B : BasicBlock) (OS1 : String), B ∈ G.blocks → NoAbort E B.insts →
        BasicBlock.print E B OS1 =
          some (OS1 ++ blockText G.blockNumber G.valueNumber B)) ∧
      (NoAbort E G.instructions →
        CFG.print E G OS =
          some (OS ++ String.join (G.blocks.map (blockText G.blockNumber G.valueNumber)))) :=
  ⟨printBlocks_eq_alone E G G.blocks (CFGPrinter.new OS) hE (fun _ h => h)
      (Or.inr ⟨rfl, rfl⟩) (Or.inr ⟨rfl, rfl⟩),
    fun B OS1 hB hk => BasicBlock_print_spec E G B OS1 hE hB hk,
    fun hk => CFG_print_spec E G OS hE hk⟩

/-- C17 on `sampleGraph`: the second block printed alone, after the first,
shows `bb1` and `%2`, `%3`, `%4` as in the print of the whole graph. -/
theorem C17_shared_registry_equals_per_block_witness :
    (Env.ofGraph sampleGraph 100).Owns sampleGraph ∧
    CFG.print (Env.ofGraph sampleGraph 100) sampleGraph "" =
      printBlocksAlone (Env.ofGraph sampleGraph 100) sampleGraph.blocks "" ∧
    printBlocksAlone (Env.ofGraph sampleGraph 100) sampleGraph.blocks "" =
      some ("bb0:\t ; Preds:\n  %0 = Call(fn=%1,args=(%0 %4294967295))\n" ++
        "  %1 = Tuple(%1,%4)\n\nbb1:\t ; Preds: bb0 bb1\n  %2 = br bb0(%1%2)\n" ++
        "  %3 = cond_br(cond=?,branches=(bb1,bb0))\n  %4 = Integer(val=-1,width=8)\n\n") :=
  ⟨⟨fun _ _ => rfl, fun _ _ => rfl⟩,
    (C17_shared_registry_equals_per_block (Env.ofGraph sampleGraph 100) sampleGraph ""
      ⟨fun _ _ => rfl, fun _ _ => rfl⟩).1,
    by decide⟩

/-- C18: for an instruction `I` of a graph, at any place in any block, whose
branch targets are blocks of the graph, `Instruction::print` with its fresh
printer appends exactly the line that `CFG::print` writes for `I` between
the lines of the instructions before and after it: the identifier is the
number of `I` in the whole graph, not `%0`. -/
theorem C18_lone_instruction_line (E : Env) (G : CFG) (OS OS1 : String)
    (bs1 bs2 : List BasicBlock) (B : BasicBlock) (is1 is2 : List Instruction)
    (I : Instruction)
    (hE : E.Owns G) (hG : G.blocks = bs1 ++ B :: bs2) (hB : B.insts = is1 ++ I :: is2)
    (hrefs : ∀ t ∈ I.kind.blockRefs, ∃ B1 ∈ G.blocks, B1.addr = t)
    (hk : NoAbort E G.instructions) :
    Instruction.print E I OS = some (OS ++ instText G.blockNumber G.valueNumber I) ∧
      CFG.print E G OS1 =
        some (OS1 ++ (String.join (bs1.map (blockText G.blockNumber G.valueNumber)) ++
          (blockRef G.blockNumber B.addr ++ ":\t" ++ " ; Preds:" ++
            String.join (B.Preds.map (fun p => " " ++ blockRef G.blockNumber p)) ++ "\n" ++
            String.join (is1.map (instText G.blockNumber G.valueNumber)) ++
            instText G.blockNumber G.valueNumber I ++
            String.join (is2.map (instText G.blockNumber G.valueNumber)) ++ "\n") ++
          String.join (bs2.map (blockText G.blockNumber G.valueNumber)))) ∧
      instText G.blockNumber G.valueNumber I =
        "  " ++ "%" ++ toString (G.valueNumber I.addr) ++ " = " ++
          bodyText G.blockNumber G.valueNumber I.kind ++ "\n" := by
  have hBmem : B ∈ G.blocks := by rw [hG]; simp
  have hImem : I ∈ G.instructions :=
    mem_instructions G B I hBmem (by rw [hB]; simp)
  refine ⟨Instruction_print_spec E G I OS hE hImem hrefs (hk I hImem), ?_, ?_⟩
  · rw [CFG_print_spec E G OS1 hE hk, hG, join_map_append_cons]
    simp only [blockText, hB, join_map_append_cons, String.append_assoc]
  · simp only [instText, valueRef_inst_eq, String.append_assoc]

/-- C18 at the conditional branch of `sampleGraph`, second instruction of
the second block: printed alone it reads `%3`. -/
theorem C18_lone_instruction_line_witness :
    (Env.ofGraph sampleGraph 100).Owns sampleGraph ∧
    NoAbort (Env.ofGraph sampleGraph 100) sampleGraph.instructions ∧
    Instruction.print (Env.ofGraph sampleGraph 100)
        ⟨203, InstKind.CondBranchInst (CFGValue.Instruction 200) 101 100⟩ "" =
      some "  %3 = cond_br(cond=?,branches=(bb1,bb0))\n" :=
  ⟨⟨fun _ _ => rfl, fun _ _ => rfl⟩, by unfold NoAbort; decide,
    (C18_lone_instruction_line (Env.ofGraph sampleGraph 100) sampleGraph "" ""
      [⟨100, [],
        [⟨200, InstKind.CallInst (CFGValue.Instruction 201)
            [CFGValue.Instruction 200, CFGValue.BasicBlockArg 5]⟩,
         ⟨201, InstKind.TupleInst [CFGValue.Instruction 201, CFGValue.Instruction 204]⟩]⟩]
      []
      ⟨101, [100, 101],
        [⟨202, InstKind.UncondBranchInst 100 [1, 2]⟩,
         ⟨203, InstKind.CondBranchInst (CFGValue.Instruction 200) 101 100⟩,
         ⟨204, InstKind.IntegerLiteralInst ⟨8, 255⟩⟩]⟩
      [⟨202, InstKind.UncondBranchInst 100 [1, 2]⟩]
      [⟨204, InstKind.IntegerLiteralInst ⟨8, 255⟩⟩]
      ⟨203, InstKind.CondBranchInst (CFGValue.Instruction 200) 101 100⟩
      ⟨fun _ _ => rfl, fun _ _ => rfl⟩ rfl rfl (by decide)
      (by unfold NoAbort; decide)).1.trans (by decide)⟩

/-! ## Exact contents of the caches, and distinct texts -/

theorem DenseMap.assign_of_find_none (M : DenseMap) (k v : Nat) (h : M.find k = none) :
    M.assign k v = ⟨M.entries ++ [(k, v)]⟩ := by
  unfold DenseMap.assign; rw [h]

theorem DenseMap.assign_empty (M : DenseMap) (k v : Nat) : (M.assign k v).empty = false := by
  unfold DenseMap.assign
  cases h : M.find k with
  | none => simp [DenseMap.empty]
  | some w =>
    simp only [DenseMap.find] at h
    simp only [DenseMap.empty]
    cases he : M.entries with
    | nil => rw [he] at h; simp at h
    | cons a l => rfl

theorem numberKeys_empty_false (ks : List Nat) (idx : Nat) (M : DenseMap)
    (h : M.empty = false) : (numberKeys ks idx M).1.empty = false := by
  induction ks generalizing idx M with
  | nil => exact h
  | cons k rest ih => exact ih _ _ (DenseMap.assign_empty M k idx)

theorem numberKeys_nonempty (ks : List Nat) (idx : Nat) (M : DenseMap) (h : ks ≠ []) :
    (numberKeys ks idx M).1.empty = false := by
  cases ks with
  | nil => exact absurd rfl h
  | cons k rest => exact numberKeys_empty_false rest _ _ (DenseMap.assign_empty M k idx)

theorem numberKeys_entries (ks : List Nat) (idx : Nat) (M : DenseMap)
    (hidx : idx < UNSIGNED_RANGE) (hnd : ks.Nodup) (hM : ∀ k ∈ ks, M.find k = none) :
    (numberKeys ks idx M).1.entries =
      M.entries ++ List.zip ks
        ((List.range ks.length).map (fun t => (idx + t) % UNSIGNED_RANGE)) := by
  induction ks generalizing idx M with
  | nil => simp [numberKeys]
  | cons k rest ih =>
    rw [List.nodup_cons] at hnd
    have hk := hM k (List.mem_cons_self _ _)
    have hM1 : ∀ k1 ∈ rest, (M.assign k idx).find k1 = none := by
      intro k1 hk1
      rw [DenseMap.find_assign]
      have hne : k1 ≠ k := fun h => hnd.1 (h ▸ hk1)
      rw [if_neg hne]
      exact hM k1 (List.mem_cons_of_mem _ hk1)
    simp only [numberKeys]
    rw [ih _ _ (Nat.mod_lt _ UNSIGNED_RANGE_pos) hnd.2 hM1,
      DenseMap.assign_of_find_none M k idx hk]
    simp only [List.length_cons, List.range_succ_eq_map, List.map_cons, List.map_map,
      List.zip_cons_cons, List.append_assoc, List.singleton_append, Nat.add_zero,
      Nat.mod_eq_of_lt hidx]
    congr 3
    apply List.map_congr_left
    intro t _
    simp only [Function.comp]
    rw [Nat.mod_add_mod]
    congr 1
    omega

theorem numberBlocks_fresh_entries (G : CFG) (hnd : (G.blocks.map BasicBlock.addr).Nodup) :
    numberBlocks G.blocks 0 ⟨[]⟩ =
      ⟨List.zip (G.blocks.map BasicBlock.addr)
        ((List.range G.blocks.length).map (fun i => i % UNSIGNED_RANGE))⟩ := by
  have h := numberKeys_entries (G.blocks.map BasicBlock.addr) 0 ⟨[]⟩ UNSIGNED_RANGE_pos hnd
    (fun _ _ => rfl)
  rw [numberBlocks_eq]
  simp only [List.nil_append, List.length_map, Nat.zero_add] at h
  cases hm : (numberKeys (G.blocks.map BasicBlock.addr) 0 ⟨[]⟩).1 with
  | mk es => rw [hm] at h; simp only at h; rw [h]

theorem blockNumber_getElem? (G : CFG) (hnd : (G.blocks.map BasicBlock.addr).Nodup)
    (i : Nat) (b : BasicBlock) (hb : G.blocks[i]? = some b) :
    G.blockNumber b.addr = i % UNSIGNED_RANGE := by
  have hk : (G.blocks.map BasicBlock.addr)[i]? = some b.addr := by
    rw [List.getElem?_map, hb]; rfl
  have hf := numberKeys_find _ 0 ⟨[]⟩ UNSIGNED_RANGE_pos hnd i b.addr hk
  rw [Nat.zero_add] at hf
  simp only [CFG.blockNumber, numberBlocks_eq, DenseMap.numOf, hf, Option.getD_some]

theorem valueNumber_getElem? (G : CFG) (hnd : (G.instructions.map Instruction.addr).Nodup)
    (n : Nat) (I : Instruction) (hI : G.instructions[n]? = some I) :
    G.valueNumber I.addr = n % UNSIGNED_RANGE := by
  have hk : (G.instructions.map Instruction.addr)[n]? = some I.addr := by
    rw [List.getElem?_map, hI]; rfl
  have hf := numberKeys_find _ 0 ⟨[]⟩ UNSIGNED_RANGE_pos hnd n I.addr hk
  rw [Nat.zero_add] at hf
  simp only [CFG.instructions] at hf
  simp only [CFG.valueNumber, numberAllInsts_eq, DenseMap.numOf, hf, Option.getD_some]

theorem digitChar_value (m : Nat) (h : m < 10) : (Nat.digitChar m).toNat - 48 = m := by
  interval_cases m <;> rfl

theorem toDigitsCore_decode (fuel n : Nat) (ds : List Char) (h : n < fuel) :
    decodeDecimal 0 (Nat.toDigitsCore 10 fuel n ds) = decodeDecimal n ds := by
  induction fuel generalizing n ds with
  | zero => omega
  | succ fuel ih =>
    unfold Nat.toDigitsCore
    simp only []
    split
    · rename_i h0
      have hn : n < 10 := by
        by_contra hc
        have : 0 < n / 10 := Nat.div_pos (by omega) (by omega)
        omega
      simp only [decodeDecimal, List.foldl_cons, Nat.zero_mul, Nat.zero_add,
        Nat.mod_eq_of_lt hn, digitChar_value n hn]
    · rename_i h0
      have hlt : n / 10 < fuel := by
        have : n / 10 < n := Nat.div_lt_self (by omega) (by omega)
        omega
      rw [ih (n / 10) _ hlt]
      simp only [decodeDecimal, List.foldl_cons,
        digitChar_value (n % 10) (Nat.mod_lt _ (by omega))]
      congr 1
      omega

theorem toString_decode (n : Nat) : decodeDecimal 0 (toString n).data = n := by
  show decodeDecimal 0 (Nat.toDigitsCore 10 (n + 1) n []) = n
  rw [toDigitsCore_decode (n + 1) n [] (by omega)]
  rfl

theorem toString_nat_injective (a b : Nat) (h : toString a = toString b) : a = b := by
  rw [← toString_decode a, ← toString_decode b, h]

theorem string_append_left_cancel (p s t : String) (h : p ++ s = p ++ t) : s = t := by
  have hd := congrArg String.data h
  simp only [String.data_append] at hd
  exact String.ext (List.append_cancel_left hd)

theorem getID_BasicBlock_cached (E : Env) (G : CFG) (Q : CFGPrinter) (i : Nat)
    (b : BasicBlock) (hnd : (G.blocks.map BasicBlock.addr).Nodup)
    (hQ : Q.BlocksToIDMap = numberBlocks G.blocks 0 ⟨[]⟩) (hb : G.blocks[i]? = some b) :
    getID_BasicBlock E b.addr Q = (⟨IDKind.BasicBlock, i % UNSIGNED_RANGE⟩, Q) := by
  have hk : (G.blocks.map BasicBlock.addr)[i]? = some b.addr := by
    rw [List.getElem?_map, hb]; rfl
  have hf := numberKeys_find _ 0 ⟨[]⟩ UNSIGNED_RANGE_pos hnd i b.addr hk
  rw [Nat.zero_add, ← numberBlocks_eq, ← hQ] at hf
  have hne : G.blocks.map BasicBlock.addr ≠ [] := by
    intro h; rw [h] at hk; simp at hk
  have hemp : Q.BlocksToIDMap.empty = false := by
    rw [hQ, numberBlocks_eq]; exact numberKeys_nonempty _ _ _ hne
  simp only [getID_BasicBlock, hemp, Bool.false_eq_true, if_false,
    DenseMap.index_of_find _ _ _ hf]

/-- C16 fails as stated: after the first lookup of a block of `longGraph`,
2^32 + 1 pairwise distinct blocks, on a fresh registry, the cache holds for
the block at position 2^32 the number 0, not 2^32. -/
theorem C16_counterexample :
    (longGraph.blocks.map BasicBlock.addr).Nodup ∧
    longGraph.blocks[0]? = some ⟨1, [], []⟩ ∧
    longGraph.blocks[4294967296]? = some ⟨4294967297, [], []⟩ ∧
    ((getID_BasicBlock (Env.ofGraph longGraph 1) 1
      (CFGPrinter.new "")).2.BlocksToIDMap.find 4294967297 = some 0) ∧
    ((getID_BasicBlock (Env.ofGraph longGraph 1) 1
      (CFGPrinter.new "")).2.BlocksToIDMap.find 4294967297 ≠ some 4294967296) := by
  have haddr : longGraph.blocks.map BasicBlock.addr =
      (List.range 4294967297).map (fun a => a + 1) := by
    simp only [longGraph, List.map_map]
    rfl
  have hnd : (longGraph.blocks.map BasicBlock.addr).Nodup := by
    rw [haddr]
    exact (List.nodup_range _).map (fun x y h => by omega)
  have hget0 : longGraph.blocks[0]? = some ⟨1, [], []⟩ := by
    simp only [longGraph]
    rw [List.getElem?_map, List.getElem?_range (by omega)]
    rfl
  have hget : longGraph.blocks[4294967296]? = some ⟨4294967297, [], []⟩ := by
    simp only [longGraph]
    rw [List.getElem?_map, List.getElem?_range (by omega)]
    rfl
  have hinit : (CFGPrinter.new "").BlocksToIDMap = ⟨[]⟩ := rfl
  have hstate : (getID_BasicBlock (Env.ofGraph longGraph 1) 1
      (CFGPrinter.new "")).2.BlocksToIDMap = numberBlocks longGraph.blocks 0 ⟨[]⟩ := by
    have hk : (longGraph.blocks.map BasicBlock.addr)[0]? = some 1 := by
      rw [List.getElem?_map, hget0]; rfl
    have hf := numberKeys_find _ 0 ⟨[]⟩ UNSIGNED_RANGE_pos hnd 0 1 hk
    rw [← numberBlocks_eq] at hf
    simp only [getID_BasicBlock, hinit, DenseMap.empty, List.isEmpty_nil, if_true,
      Env.ofGraph, DenseMap.index_of_find _ _ _ hf]
  have hk2 : (longGraph.blocks.map BasicBlock.addr)[4294967296]? = some 4294967297 := by
    rw [List.getElem?_map, hget]; rfl
  have hf2 := numberKeys_find _ 0 ⟨[]⟩ UNSIGNED_RANGE_pos hnd 4294967296 4294967297 hk2
  have hmod : (0 + 4294967296) % UNSIGNED_RANGE = 0 := by
    unfold UNSIGNED_RANGE; norm_num
  rw [hmod, ← numberBlocks_eq, ← hstate] at hf2
  refine ⟨hnd, hget0, hget, hf2, ?_⟩
  rw [hf2]
  intro h
  simp at h

/-- C16, as the code has it: for a graph with pairwise distinct blocks, the
first lookup of one of its blocks on a fresh registry leaves the block
cache equal to the map that sends the block at position `i` to `i` reduced
modulo `2 ^ 32`; on any printer with that cache, the lookup of a block of
the graph returns the cached number and leaves the block cache as it was;
and no block lookup changes the instruction cache. -/
theorem C16_block_cache_memoised (E : Env) (G : CFG) (OS : String) (IM : DenseMap)
    (b : BasicBlock)
    (hnd : (G.blocks.map BasicBlock.addr).Nodup) (hb : b ∈ G.blocks)
    (hE : ∀ B ∈ G.blocks, E.blockParent B.addr = G) :
    (getID_BasicBlock E b.addr ⟨OS, ⟨[]⟩, IM⟩).2.BlocksToIDMap =
        ⟨List.zip (G.blocks.map BasicBlock.addr)
          ((List.range G.blocks.length).map (fun i => i % UNSIGNED_RANGE))⟩ ∧
      (∀ (Q : CFGPrinter) (i : Nat) (b1 : BasicBlock),
        Q.BlocksToIDMap = ⟨List.zip (G.blocks.map BasicBlock.addr)
          ((List.range G.blocks.length).map (fun i => i % UNSIGNED_RANGE))⟩ →
        G.blocks[i]? = some b1 →
        (getID_BasicBlock E b1.addr Q).1 = ⟨IDKind.BasicBlock, i % UNSIGNED_RANGE⟩ ∧
          (getID_BasicBlock E b1.addr Q).2.BlocksToIDMap = Q.BlocksToIDMap) ∧
      (∀ (E1 : Env) (b1 : Nat) (P : CFGPrinter),
        (getID_BasicBlock E1 b1 P).2.InstructionToIDMap = P.InstructionToIDMap) := by
  have hfresh := numberBlocks_fresh_entries G hnd
  refine ⟨?_, fun Q i b1 hQ hb1 => ?_, fun E1 b1 P => rfl⟩
  · obtain ⟨i, hi⟩ := List.getElem?_of_mem hb
    have hk : (G.blocks.map BasicBlock.addr)[i]? = some b.addr := by
      rw [List.getElem?_map, hi]; rfl
    have hf := numberKeys_find _ 0 ⟨[]⟩ UNSIGNED_RANGE_pos hnd i b.addr hk
    rw [← numberBlocks_eq] at hf
    simp only [getID_BasicBlock, DenseMap.empty, List.isEmpty_nil, if_true, hE b hb,
      DenseMap.index_of_find _ _ _ hf]
    exact hfresh
  · rw [← hfresh] at hQ
    rw [getID_BasicBlock_cached E G Q i b1 hnd hQ hb1]
    exact ⟨rfl, rfl⟩

/-- C16 on `sampleGraph`: after the first lookup, of block 101, the cache
is `100 -> 0, 101 -> 1`. -/
theorem C16_block_cache_memoised_witness :
    (sampleGraph.blocks.map BasicBlock.addr).Nodup ∧
    (getID_BasicBlock (Env.ofGraph sampleGraph 100) 101 ⟨"", ⟨[]⟩, ⟨[]⟩⟩).2.BlocksToIDMap =
      ⟨[(100, 0), (101, 1)]⟩ :=
  ⟨by decide,
    (C16_block_cache_memoised (Env.ofGraph sampleGraph 100) sampleGraph "" ⟨[]⟩
      ⟨101, [100, 101],
        [⟨202, InstKind.UncondBranchInst 100 [1, 2]⟩,
         ⟨203, InstKind.CondBranchInst (CFGValue.Instruction 200) 101 100⟩,
         ⟨204, InstKind.IntegerLiteralInst ⟨8, 255⟩⟩]⟩
      (by decide) (by decide) (fun _ _ => rfl)).1.trans (by decide)⟩

theorem flatten_map_nil {α β : Type} (l : List α) :
    (l.map (fun _ => ([] : List β))).flatten = [] := by
  induction l with
  | nil => rfl
  | cons a l ih => simp only [List.map_cons, List.flatten_cons, ih, List.append_nil]

/-- C19 fails as stated: `longGraph` has 2^32 + 1 pairwise distinct blocks
and no instruction at all (so fewer than 2^32), yet its first block and the
block at position 2^32, two distinct blocks, are both numbered 0 and both
written `bb0`. -/
theorem C19_counterexample :
    (longGraph.blocks.map BasicBlock.addr).Nodup ∧
    (longGraph.instructions.map Instruction.addr).Nodup ∧
    longGraph.instructions.length < 4294967296 ∧
    longGraph.blocks[0]? = some ⟨1, [], []⟩ ∧
    longGraph.blocks[4294967296]? = some ⟨4294967297, [], []⟩ ∧
    longGraph.blockNumber 1 = 0 ∧
    longGraph.blockNumber 4294967297 = 0 ∧
    blockRef longGraph.blockNumber 1 = blockRef longGraph.blockNumber 4294967297 := by
  have haddr : longGraph.blocks.map BasicBlock.addr =
      (List.range 4294967297).map (fun a => a + 1) := by
    simp only [longGraph, List.map_map]
    rfl
  have hnd : (longGraph.blocks.map BasicBlock.addr).Nodup := by
    rw [haddr]
    exact (List.nodup_range _).map (fun x y h => by omega)
  have hins : longGraph.instructions = [] := by
    simp only [CFG.instructions, longGraph, List.map_map]
    exact flatten_map_nil _
  have hget0 : longGraph.blocks[0]? = some ⟨1, [], []⟩ := by
    simp only [longGraph]
    rw [List.getElem?_map, List.getElem?_range (by omega)]
    rfl
  have hget : longGraph.blocks[4294967296]? = some ⟨4294967297, [], []⟩ := by
    simp only [longGraph]
    rw [List.getElem?_map, List.getElem?_range (by omega)]
    rfl
  have h0 : longGraph.blockNumber 1 = 0 := by
    have := blockNumber_getElem? longGraph hnd 0 _ hget0
    rw [this]; rfl
  have h1 : longGraph.blockNumber 4294967297 = 0 := by
    have := blockNumber_getElem? longGraph hnd 4294967296 _ hget
    rw [this]; unfold UNSIGNED_RANGE; norm_num
  refine ⟨hnd, ?_, ?_, hget0, hget, h0, h1, ?_⟩
  · rw [hins]; exact List.nodup_nil
  · rw [hins]; simp
  · simp only [blockRef, h0, h1]

/-- C19, as the code has it: for a graph of at most 2^32 pairwise distinct
blocks and fewer than 2^32 pairwise distinct instructions, the block at
position `i` is numbered `i` and the instruction at position `n` of the
whole graph is numbered `n`; two distinct blocks are never written with the
same `bb` text, two distinct instructions never with the same `%` text, and
no instruction is written `%4294967295`, the text of a block argument. -/
theorem C19_numbering_bijective (G : CFG)
    (hndB : (G.blocks.map BasicBlock.addr).Nodup)
    (hndI : (G.instructions.map Instruction.addr).Nodup)
    (hk : G.blocks.length ≤ UNSIGNED_RANGE)
    (hN : G.instructions.length < UNSIGNED_RANGE) :
    (∀ (i : Nat) (b : BasicBlock), G.blocks[i]? = some b → G.blockNumber b.addr = i) ∧
      (∀ (n : Nat) (I : Instruction), G.instructions[n]? = some I →
        G.valueNumber I.addr = n) ∧
      (∀ b1 ∈ G.blocks, ∀ b2 ∈ G.blocks, b1.addr ≠ b2.addr →
        blockRef G.blockNumber b1.addr ≠ blockRef G.blockNumber b2.addr) ∧
      (∀ I ∈ G.instructions, ∀ J ∈ G.instructions, I.addr ≠ J.addr →
        valueRef G.valueNumber (CFGValue.Instruction I.addr) ≠
          valueRef G.valueNumber (CFGValue.Instruction J.addr)) ∧
      (∀ I ∈ G.instructions, ∀ p : Nat,
        valueRef G.valueNumber (CFGValue.Instruction I.addr) ≠ "%4294967295" ∧
        valueRef G.valueNumber (CFGValue.Instruction I.addr) ≠
          valueRef G.valueNumber (CFGValue.BasicBlockArg p)) := by
  have hB : ∀ (i : Nat) (b : BasicBlock), G.blocks[i]? = some b →
      G.blockNumber b.addr = i := by
    intro i b hb
    have hlt : i < G.blocks.length := by
      by_contra hc
      rw [List.getElem?_eq_none (by omega)] at hb
      cases hb
    rw [blockNumber_getElem? G hndB i b hb, Nat.mod_eq_of_lt (by omega)]
  have hI : ∀ (n : Nat) (I : Instruction), G.instructions[n]? = some I →
      G.valueNumber I.addr = n := by
    intro n I hn
    have hlt : n < G.instructions.length := by
      by_contra hc
      rw [List.getElem?_eq_none (by omega)] at hn
      cases hn
    rw [valueNumber_getElem? G hndI n I hn, Nat.mod_eq_of_lt (by omega)]
  have hsent : ∀ I ∈ G.instructions,
      valueRef G.valueNumber (CFGValue.Instruction I.addr) ≠ "%4294967295" := by
    intro I hIm h
    obtain ⟨n, hn⟩ := List.getElem?_of_mem hIm
    have hlt : n < G.instructions.length := by
      by_contra hc
      rw [List.getElem?_eq_none (by omega)] at hn
      cases hn
    rw [valueRef_inst_eq, hI n I hn] at h
    have h2 : toString n = toString (4294967295 : Nat) :=
      string_append_left_cancel "%" _ _ h
    have h3 := toString_nat_injective _ _ h2
    unfold UNSIGNED_RANGE at hN
    omega
  refine ⟨hB, hI, ?_, ?_, fun I hIm p => ⟨hsent I hIm, ?_⟩⟩
  · intro b1 hb1 b2 hb2 hne h
    obtain ⟨i, hi⟩ := List.getElem?_of_mem hb1
    obtain ⟨j, hj⟩ := List.getElem?_of_mem hb2
    rw [blockRef_eq, blockRef_eq, hB i b1 hi, hB j b2 hj] at h
    have hij : i = j := toString_nat_injective _ _ (string_append_left_cancel "bb" _ _ h)
    subst hij
    rw [hi] at hj
    cases hj
    exact hne rfl
  · intro I hIm J hJm hne h
    obtain ⟨n, hn⟩ := List.getElem?_of_mem hIm
    obtain ⟨m, hm⟩ := List.getElem?_of_mem hJm
    rw [valueRef_inst_eq, valueRef_inst_eq, hI n I hn, hI m J hm] at h
    have hnm : n = m := toString_nat_injective _ _ (string_append_left_cancel "%" _ _ h)
    subst hnm
    rw [hn] at hm
    cases hm
    exact hne rfl
  · rw [valueRef_arg_eq]
    exact hsent I hIm

/-- C19 on `sampleGraph`: the block 101 is numbered 1, the instruction 203
is numbered 3, and blocks 100 and 101 are written differently. -/
theorem C19_numbering_bijective_witness :
    (sampleGraph.blocks.map BasicBlock.addr).Nodup ∧
    (sampleGraph.instructions.map Instruction.addr).Nodup ∧
    sampleGraph.blocks.length ≤ UNSIGNED_RANGE ∧
    sampleGraph.instructions.length < UNSIGNED_RANGE ∧
    sampleGraph.valueNumber 203 = 3 :=
  ⟨by decide, by decide, by decide, by decide,
    (C19_numbering_bijective sampleGraph (by decide) (by decide) (by decide)
      (by decide)).2.1 3 ⟨203, InstKind.CondBranchInst (CFGValue.Instruction 200) 101 100⟩
      rfl⟩

/-- C20: on a printer whose block cache was filled by the pass over a graph
with at least one block, the lookup of a block address that is not in the
graph returns the block identifier numbered 0, written `bb0`, and adds the
entry `b -> 0` to the cache; the first block of the graph, when the blocks
are pairwise distinct, is numbered 0 too. Likewise, on an instruction cache
filled by the pass over a graph with at least one instruction, the lookup
of an instruction address that is not in the graph returns the value
identifier numbered 0, written `%0`, and adds the entry `a -> 0`. -/
theorem C20_unknown_key_gets_zero (E : Env) (G : CFG) (OS : String) :
    (∀ (b : Nat) (IM : DenseMap), G.blocks ≠ [] → b ∉ G.blocks.map BasicBlock.addr →
      getID_BasicBlock E b ⟨OS, numberBlocks G.blocks 0 ⟨[]⟩, IM⟩ =
          (⟨IDKind.BasicBlock, 0⟩,
            ⟨OS, ⟨(numberBlocks G.blocks 0 ⟨[]⟩).entries ++ [(b, 0)]⟩, IM⟩) ∧
        writeID "" (getID_BasicBlock E b ⟨OS, numberBlocks G.blocks 0 ⟨[]⟩, IM⟩).1 = "bb0") ∧
      (∀ (a : Nat) (BM : DenseMap), G.instructions ≠ [] →
        a ∉ G.instructions.map Instruction.addr →
        getID_Instruction E a ⟨OS, BM, numberAllInsts G.blocks 0 ⟨[]⟩⟩ =
            (⟨IDKind.SSAValue, 0⟩,
              ⟨OS, BM, ⟨(numberAllInsts G.blocks 0 ⟨[]⟩).entries ++ [(a, 0)]⟩⟩) ∧
          writeID "" (getID_Instruction E a ⟨OS, BM, numberAllInsts G.blocks 0 ⟨[]⟩⟩).1 =
            "%0") ∧
      (∀ (b0 : BasicBlock) (rest : List BasicBlock), G.blocks = b0 :: rest →
        (G.blocks.map BasicBlock.addr).Nodup →
        blockRef G.blockNumber b0.addr = "bb0") := by
  refine ⟨fun b IM hne hb => ?_, fun a BM hne ha => ?_, fun b0 rest hG hnd => ?_⟩
  · have hemp : (numberBlocks G.blocks 0 ⟨[]⟩).empty = false := by
      rw [numberBlocks_eq]
      exact numberKeys_nonempty _ _ _ (by simpa using hne)
    have hfind : (numberBlocks G.blocks 0 ⟨[]⟩).find b = none := by
      rw [numberBlocks_eq, numberKeys_find_not_mem _ _ _ _ hb]; rfl
    have hget : getID_BasicBlock E b ⟨OS, numberBlocks G.blocks 0 ⟨[]⟩, IM⟩ =
        (⟨IDKind.BasicBlock, 0⟩,
          ⟨OS, ⟨(numberBlocks G.blocks 0 ⟨[]⟩).entries ++ [(b, 0)]⟩, IM⟩) := by
      simp only [getID_BasicBlock, hemp, Bool.false_eq_true, if_false, DenseMap.index, hfind]
    rw [hget]
    exact ⟨rfl, show writeID "" ⟨IDKind.BasicBlock, 0⟩ = "bb0" by decide⟩
  · have hemp : (numberAllInsts G.blocks 0 ⟨[]⟩).empty = false := by
      rw [numberAllInsts_eq]
      exact numberKeys_nonempty _ _ _ (by simpa [CFG.instructions] using hne)
    have hfind : (numberAllInsts G.blocks 0 ⟨[]⟩).find a = none := by
      rw [numberAllInsts_eq]
      exact numberKeys_find_not_mem _ _ _ _ ha
    have hget : getID_Instruction E a ⟨OS, BM, numberAllInsts G.blocks 0 ⟨[]⟩⟩ =
        (⟨IDKind.SSAValue, 0⟩,
          ⟨OS, BM, ⟨(numberAllInsts G.blocks 0 ⟨[]⟩).entries ++ [(a, 0)]⟩⟩) := by
      simp only [getID_Instruction, hemp, Bool.false_eq_true, if_false, DenseMap.index,
        hfind]
    rw [hget]
    exact ⟨rfl, show writeID "" ⟨IDKind.SSAValue, 0⟩ = "%0" by decide⟩
  · have hb0 : G.blocks[0]? = some b0 := by rw [hG]; simp
    rw [blockRef_eq, blockNumber_getElem? G hnd 0 b0 hb0]
    decide

/-- C20 on the caches filled from `sampleGraph`: the block address 999 and
the instruction address 999, both unknown to the graph, get the number 0
and an entry of their own. -/
theorem C20_unknown_key_gets_zero_witness :
    sampleGraph.blocks ≠ [] ∧
    999 ∉ sampleGraph.blocks.map BasicBlock.addr ∧
    getID_BasicBlock (Env.ofGraph sampleGraph 100) 999
        ⟨"", numberBlocks sampleGraph.blocks 0 ⟨[]⟩, ⟨[]⟩⟩ =
      (⟨IDKind.BasicBlock, 0⟩, ⟨"", ⟨[(100, 0), (101, 1), (999, 0)]⟩, ⟨[]⟩⟩) ∧
    getID_Instruction (Env.ofGraph sampleGraph 100) 999
        ⟨"", ⟨[]⟩, numberAllInsts sampleGraph.blocks 0 ⟨[]⟩⟩ =
      (⟨IDKind.SSAValue, 0⟩,
        ⟨"", ⟨[]⟩, ⟨[(200, 0), (201, 1), (202, 2), (203, 3), (204, 4), (999, 0)]⟩⟩) :=
  ⟨by decide, by decide,
    ((C20_unknown_key_gets_zero (Env.ofGraph sampleGraph 100) sampleGraph "").1 999 ⟨[]⟩
      (by decide) (by decide)).1.trans (by decide),
    ((C20_unknown_key_gets_zero (Env.ofGraph sampleGraph 100) sampleGraph "").2.1 999 ⟨[]⟩
      (by decide) (by decide)).1.trans (by decide)⟩

end swift
